import Mathlib

/-!
# Cookie-Clan: the idle-economy core of `src/Pages/Game.jsx`

A shallow embedding of the balance-changing code of the `Game` component, and
of the ownership checks of the premium shop (`ShopPanel.jsx`):
the boost evaluation (`activeBoosts`, `getClickMultiplier`, `getCPSMultiplier`,
`getBonusCookies`), the rate computation (`calculateStats`, `effectiveCpc`,
`effectiveCps`), the handlers (`handleClick`, `handlePurchase`, the
cookies-per-second interval, the friends panel's `onCookiesChange`) and the
`freshPlayer` reconciliation effect.

Conventions of the embedding.

* JavaScript numbers are rationals (`ℚ`), without `NaN` and infinities, and
  `Math.floor` is `Int.floor`.  The session operations (`handlePurchase`, the
  tick, the reload effect, runs) and the first definitions of the rate
  computation use exact arithmetic; the section on double-precision arithmetic
  repeats the rate computation and the click with every operation rounded to
  the nearest IEEE 754 binary64 value (`Binary64.calculateStats`,
  `Binary64.effectiveCpc`, `Binary64.handleClick`, ...), which is what the code
  computes.
* A handler runs in the closure of the latest render: the `cookies` and
  `player` it reads are those of the current session state.
* The outcome of a built-in or of the remote SDK (`JSON.parse`,
  `Player.update`) is an input of the model.
-/

namespace CookieClan

/-! ## Data model -/

/-- The `upgrades` object of a player: upgrade id to owned count, in key order. -/
abbrev Upgrades := List (String × ℚ)

/-- The player record as `Game.jsx` and `ShopPanel.jsx` read it.  `upgrades`
and `membership` may be missing on the record (`undefined`). -/
structure Player where
  id : String
  cookies : ℚ
  upgrades : Option Upgrades
  is_vip : Bool
  membership : Option String
  deriving DecidableEq, Repr

/-- An entry of the `UPGRADES` catalog, with the fields `Game.jsx` reads. -/
structure Upgrade where
  id : String
  cpcBonus : ℚ
  cpsBonus : ℚ
  deriving DecidableEq, Repr

/-- A `GlobalBoost` record.  `type` is the raw string of the record,
`expires_at` the time value (milliseconds) of `new Date(b.expires_at)`. -/
structure Boost where
  name : String
  type : String
  multiplier : ℚ
  expires_at : ℤ
  deriving DecidableEq, Repr

/-- A number-valued property read: `undefined` when the property is missing. -/
inductive JsNum where
  | undefined
  | num (q : ℚ)
  deriving DecidableEq, Repr

/-- A string stored in `localStorage` under a `cookiePlayerData_` key, with
the outcome of `JSON.parse` on it.
* `empty`: the empty string (falsy);
* `unparsable`: a non-empty text on which `JSON.parse` throws `SyntaxError`;
* `jsonNull`: a text parsing to `null`;
* `json c`: a text parsing to any other value, `c` being what the property
  read `.cookies` yields on it (a number, or `undefined` when the value has no
  such property).
A `cookies` property holding a non-number is outside this type, as the
session balance it could be copied to is a number here; `StoredText` and
`reloadCommands` below cover every stored value. -/
inductive Stored where
  | empty
  | unparsable
  | jsonNull
  | json (cookies : JsNum)
  deriving DecidableEq, Repr

/-- A call `base44.entities.Player.update(id, fields)` issued by the page. -/
inductive RemoteCall where
  | updateCookies (id : String) (cookies : ℚ)
  | updateUpgrades (id : String) (upgrades : Upgrades)
  deriving DecidableEq, Repr

/-- How an awaited remote call settles. -/
inductive RemoteOutcome where
  | resolves
  | rejects
  deriving DecidableEq, Repr

/-- The exceptions the modelled code can raise. -/
inductive JsError where
  | syntaxError
  | typeError
  | remoteRejection
  deriving DecidableEq, Repr

/-- The session: the two React states of `Game` (`player`, `cookies`), the
part of `localStorage` the page uses, and the remote updates issued so far. -/
structure World where
  player : Option Player
  cookies : ℚ
  /-- The `localStorage` entries under keys `'cookiePlayerData_' + id`. -/
  cache : List (String × Stored)
  /-- The `localStorage` entry `'cookiePlayer'`. -/
  savedPlayer : Option Player
  sent : List RemoteCall
  deriving DecidableEq, Repr

/-! ## JavaScript helpers -/

/-- The expression `v || 0` on a number-or-undefined `v`: `0` when `v` is
`undefined` or `0` (falsy), else `v`. -/
def orZero : Option ℚ → ℚ
  | none => 0
  | some q => if q = 0 then 0 else q

/-- The property read `upgrades?.[id]`: `undefined` when `upgrades` is
`undefined` or has no such key. -/
def getCount (upgrades : Option Upgrades) (id : String) : Option ℚ :=
  match upgrades with
  | none => none
  | some u => u.lookup id

/-- The object `{ ...obj, [k]: v }` on key-ordered entries: an existing key
keeps its place and takes the new value, a new key goes last.  (JavaScript lists
integer-like keys before the others; lookups do not depend on the order.) -/
def setKey (k : String) (v : ℚ) : Upgrades → Upgrades
  | [] => [(k, v)]
  | (k', v') :: rest => if k' = k then (k, v) :: rest else (k', v') :: setKey k v rest

/-- The spread `{ ...upgrades }` of a possibly `undefined` object. -/
def spread : Option Upgrades → Upgrades
  | none => []
  | some u => u

/-- The comparison `a > b` of a number-or-undefined `a` with a number `b`:
`undefined` converts to `NaN`, and every comparison with `NaN` is false. -/
def jsGt : JsNum → ℚ → Bool
  | .undefined, _ => false
  | .num a, b => decide (b < a)

/-- The key `'cookiePlayerData_' + id`. -/
def cacheKey (id : String) : String := "cookiePlayerData_" ++ id

/-- The call `localStorage.removeItem(key)`. -/
def removeItem (key : String) (cache : List (String × Stored)) : List (String × Stored) :=
  cache.filter (fun e => e.1 ≠ key)

/-! ## Purchase -/

/-- How a handler run ended. -/
inductive Completion where
  | declined
  | completed
  | threw (e : JsError)
  deriving DecidableEq, Repr

/-- The handler `handlePurchase(upgrade, cost)` (`Game.jsx`, lines 195-207),
with the way the awaited `Player.update` settles as an input.  The state
updates made before an exception stay made.  One run is embedded as a whole:
nothing else happens while the call is awaited, and `newUpgrades` is built
from the `player` of the handler's own render, here the current one. -/
def handlePurchase (upgrade : Upgrade) (cost : ℚ) (remote : RemoteOutcome) (w : World) :
    World × Completion :=
  if w.cookies < cost then (w, .declined)
  else
    let w1 := { w with cookies := w.cookies - cost }
    match w.player with
    | none => (w1, .threw .typeError)
    | some player =>
      let newUpgrades := setKey upgrade.id (orZero (getCount player.upgrades upgrade.id) + 1)
        (spread player.upgrades)
      let w2 := { w1 with sent := w1.sent ++ [.updateUpgrades player.id newUpgrades] }
      match remote with
      | .rejects => (w2, .threw .remoteRejection)
      | .resolves =>
        ({ w2 with
            player := w2.player.map (fun prev => { prev with upgrades := some newUpgrades })
            savedPlayer := some { player with upgrades := some newUpgrades } },
         .completed)

/-! ## Boosts and rates -/

/-- The list `activeBoosts` (line 94): `boosts.filter(b => new Date(b.expires_at) > new Date())`,
`now` being the time value of `new Date()`. -/
def activeBoosts (boosts : List Boost) (now : ℤ) : List Boost :=
  boosts.filter (fun b => decide (b.expires_at > now))

/-- The function `getClickMultiplier` (lines 96-100) over a given `activeBoosts`. -/
def getClickMultiplier (activeBoosts : List Boost) : ℚ :=
  (activeBoosts.filter (fun b => b.type = "click_multiplier")).foldl
    (fun mult b => mult * b.multiplier) 1

/-- The function `getCPSMultiplier` (lines 102-106) over a given `activeBoosts`. -/
def getCPSMultiplier (activeBoosts : List Boost) : ℚ :=
  (activeBoosts.filter (fun b => b.type = "cps_multiplier")).foldl
    (fun mult b => mult * b.multiplier) 1

/-- The function `getBonusCookies` (lines 108-112) over a given `activeBoosts`. -/
def getBonusCookies (activeBoosts : List Boost) : ℚ :=
  (activeBoosts.filter (fun b => b.type = "bonus_cookies")).foldl
    (fun sum b => sum + b.multiplier) 0

/-- The pair `{ cpc, cps }` returned by `calculateStats`. -/
structure Stats where
  cpc : ℚ
  cps : ℚ
  deriving DecidableEq, Repr

/-- The function `calculateStats` (lines 115-126) in exact arithmetic: one pass
of `forEach` over the catalog `UPGRADES`, which is imported from `UpgradeShop`
and so a parameter here.  `player` may still be `null` when it runs.
`Binary64.calculateStats` is the same pass in doubles. -/
def calculateStats (UPGRADES : List Upgrade) (player : Option Player) : Stats :=
  UPGRADES.foldl
    (fun acc upgrade =>
      let count := orZero (getCount (player.bind (fun p => p.upgrades)) upgrade.id)
      { cpc := acc.cpc + upgrade.cpcBonus * count, cps := acc.cps + upgrade.cpsBonus * count })
    { cpc := 1, cps := 0 }

/-- The constant `effectiveCpc` (line 129) of a render, in exact arithmetic;
`Binary64.effectiveCpc` is the same expression in doubles. -/
def effectiveCpc (UPGRADES : List Upgrade) (player : Option Player) (active : List Boost) : ℤ :=
  Int.floor ((calculateStats UPGRADES player).cpc * getClickMultiplier active
    + getBonusCookies active)

/-- The constant `effectiveCps` (line 130) of a render, in exact arithmetic;
`Binary64.effectiveCps` is the same expression in doubles. -/
def effectiveCps (UPGRADES : List Upgrade) (player : Option Player) (active : List Boost) : ℤ :=
  Int.floor ((calculateStats UPGRADES player).cps * getCPSMultiplier active)

/-! ## Click, tick and the friends panel -/

/-- The balance update of `handleClick` (lines 177-180):
`setCookies(prev => prev + earned)` with `earned = effectiveCpc`, the sum being
exact; `Binary64.handleClick` rounds it. -/
def handleClick (earned : ℤ) (w : World) : World :=
  { w with cookies := w.cookies + earned }

/-- One firing of the cookies-per-second interval (lines 166-174).  The effect
returns before `setInterval` when `effectiveCps <= 0`, so that nothing fires
then.  The callback `setCookies(prev => prev + effectiveCps)` does not read the
clock: `elapsedSeconds`, the time since the previous firing, is carried only to
state what the update does not depend on. -/
def tick (effectiveCps : ℤ) (_elapsedSeconds : ℚ) (w : World) : World :=
  if effectiveCps ≤ 0 then w
  else { w with cookies := w.cookies + effectiveCps }

/-- The callback `onCookiesChange` given to `FriendsPanel` (line 382):
`(amount) => setCookies(prev => prev + amount)`. -/
def onCookiesChange (amount : ℚ) (w : World) : World :=
  { w with cookies := w.cookies + amount }

/-! ## Reload reconciliation -/

/-- The effect on `freshPlayer` (lines 52-68).  Both places that can throw
(`JSON.parse`, and `parsed.cookies` on `null`) come before the first state
update, so that an exception leaves the session as it was. -/
def freshPlayerEffect (freshPlayer : Option Player) (w : World) : Except JsError World :=
  match freshPlayer with
  | none => .ok w
  | some fresh =>
    let adopt (w : World) : World := { w with player := some fresh, savedPlayer := some fresh }
    let consumed (w : World) : World :=
      { w with cache := removeItem (cacheKey fresh.id) w.cache }
    match w.cache.lookup (cacheKey fresh.id) with
    | none => .ok (adopt w)
    | some .empty => .ok (adopt w)
    | some .unparsable => .error .syntaxError
    | some .jsonNull => .error .typeError
    | some (.json c) =>
      let w1 : World :=
        if jsGt c fresh.cookies then
          match c with
          | .num q => { w with cookies := q, sent := w.sent ++ [.updateCookies fresh.id q] }
          | .undefined => w
        else w
      .ok (adopt (consumed w1))

/-! ## Runs of the session -/

/-- The balance-changing events of a session, each with what its render
closure and its environment provide. -/
inductive Op where
  | click (UPGRADES : List Upgrade) (boosts : List Boost) (now : ℤ)
  | passiveTick (UPGRADES : List Upgrade) (boosts : List Boost) (now : ℤ) (elapsedSeconds : ℚ)
  | purchase (upgrade : Upgrade) (cost : ℚ) (remote : RemoteOutcome)
  | reload (freshPlayer : Option Player)
  | cookiesChange (amount : ℚ)
  deriving DecidableEq, Repr

/-- The session after one event.  A handler that throws keeps the state
updates it made before the exception; the reload effect throws only before its
first update, and then leaves the session as it was. -/
def step (w : World) : Op → World
  | .click U boosts now => handleClick (effectiveCpc U w.player (activeBoosts boosts now)) w
  | .passiveTick U boosts now dt =>
    tick (effectiveCps U w.player (activeBoosts boosts now)) dt w
  | .purchase upgrade cost remote => (handlePurchase upgrade cost remote w).1
  | .reload fresh =>
    match freshPlayerEffect fresh w with
    | .ok w1 => w1
    | .error _ => w
  | .cookiesChange amount => onCookiesChange amount w

/-- The session after a sequence of events. -/
def run (w : World) (ops : List Op) : World := ops.foldl step w

/-- The side condition under which an event keeps the balance non-negative,
for the events whose code has no check of its own: a click needs a
non-negative click value, a reload a server record with non-negative `cookies`,
and `onCookiesChange(amount)` an `amount` not below `-balance`.  A passive tick
and a purchase need nothing. -/
def Admissible (w : World) : Op → Prop
  | .click U boosts now => 0 ≤ effectiveCpc U w.player (activeBoosts boosts now)
  | .passiveTick _ _ _ _ => True
  | .purchase _ _ _ => True
  | .reload fresh =>
    match fresh with
    | none => True
    | some s => 0 ≤ s.cookies
  | .cookiesChange amount => 0 ≤ w.cookies + amount

/-- Every event of the sequence is admissible in the session it occurs in. -/
def AdmissibleRun : World → List Op → Prop
  | _, [] => True
  | w, op :: ops => Admissible w op ∧ AdmissibleRun (step w op) ops

/-! ## The premium shop (`src/Components/game/ShopPanel.jsx`) -/

/-- An entry of `SHOP_ITEMS`, without its presentation fields (`description`,
`icon`, `color`).  `value` is missing (`undefined`) on the VIP entry. -/
structure ShopItem where
  id : String
  name : String
  price : ℚ
  type : String
  value : Option String
  realMoney : Bool
  deriving DecidableEq, Repr

/-- The catalog `SHOP_ITEMS` (lines 7-62). -/
def SHOP_ITEMS : List ShopItem :=
  [ { id := "vip", name := "VIP Status", price := 499 / 100, type := "vip", value := none,
      realMoney := true },
    { id := "bronze_membership", name := "Bronze Membership", price := 99 / 100,
      type := "membership", value := some "bronze", realMoney := true },
    { id := "silver_membership", name := "Silver Membership", price := 299 / 100,
      type := "membership", value := some "silver", realMoney := true },
    { id := "gold_membership", name := "Gold Membership", price := 999 / 100,
      type := "membership", value := some "gold", realMoney := true },
    { id := "diamond_membership", name := "Diamond Membership", price := 1999 / 100,
      type := "membership", value := some "diamond", realMoney := true } ]

/-- The function `isOwned` (lines 87-91).  The comparison `===` of two
string-or-undefined values is equality of options. -/
def isOwned (player : Player) (item : ShopItem) : Bool :=
  if item.type = "vip" then player.is_vip
  else if item.type = "membership" then decide (player.membership = item.value)
  else false

/-- The array `membershipOrder` (line 93). -/
def membershipOrder : List String := ["free", "bronze", "silver", "gold", "diamond"]

/-- The search of `Array.prototype.indexOf` from position `i` on. -/
def indexOfFrom (x : String) : List String → ℤ → ℤ
  | [], _ => -1
  | y :: ys, i => if y = x then i else indexOfFrom x ys (i + 1)

/-- The call `xs.indexOf(x)`: the position of the first element equal to `x`,
`-1` when there is none; `undefined` equals no string. -/
def indexOf (xs : List String) : Option String → ℤ
  | none => -1
  | some x => indexOfFrom x xs 0

/-- The expression `player.membership || 'free'`: `'free'` when the field is
missing or the empty string (falsy). -/
def orFree : Option String → String
  | none => "free"
  | some m => if m = "" then "free" else m

/-- The function `canBuyMembership` (lines 94-99). -/
def canBuyMembership (player : Player) (item : ShopItem) : Bool :=
  if item.type ≠ "membership" then true
  else
    let currentIndex := indexOf membershipOrder (some (orFree player.membership))
    let itemIndex := indexOf membershipOrder item.value
    decide (itemIndex > currentIndex)

/-- The order `free < bronze < silver < gold < diamond` as the claim words it:
the place of a tier name in that order, `none` for any other text. -/
def tierRank : String → Option ℕ
  | "free" => some 0
  | "bronze" => some 1
  | "silver" => some 2
  | "gold" => some 3
  | "diamond" => some 4
  | _ => none

/-- The tier a player currently holds, a missing membership counting as `free`. -/
def currentTier (player : Player) : String := player.membership.getD "free"

/-- Tier `b` comes strictly later than tier `a` in the order of `tierRank`. -/
def strictlyLater (a b : String) : Bool :=
  match tierRank a, tierRank b with
  | some i, some j => decide (i < j)
  | _, _ => false

/-- The entry `gold_membership` of the catalog. -/
def goldMembership : ShopItem :=
  { id := "gold_membership", name := "Gold Membership", price := 999 / 100,
    type := "membership", value := some "gold", realMoney := true }

/-- The entry `silver_membership` of the catalog. -/
def silverMembership : ShopItem :=
  { id := "silver_membership", name := "Silver Membership", price := 299 / 100,
    type := "membership", value := some "silver", realMoney := true }

/-- The entry `vip` of the catalog. -/
def vipItem : ShopItem :=
  { id := "vip", name := "VIP Status", price := 499 / 100, type := "vip", value := none,
    realMoney := true }

/-! ## Double-precision arithmetic

The definitions above compute over exact rationals.  The definitions of this
section repeat the rate computation and the click with every JavaScript
addition and multiplication rounded to the nearest IEEE 754 binary64 value, as
the code's `number` operations are.  Their arguments are meant to be doubles
themselves (a decimal literal such as `0.1` is `toDouble (1 / 10)`). -/

/-- The integer nearest to a rational, a tie going to the even one. -/
def roundHalfEven (q : ℚ) : ℤ :=
  let f := Int.floor q
  if q - f < 1 / 2 then f
  else if 1 / 2 < q - f then f + 1
  else if f % 2 = 0 then f else f + 1

/-- The binary64 value nearest to a rational (round to nearest, ties to even):
a significand of 53 bits, the exponent bounded below as for subnormal numbers.
A result of magnitude `2 ^ 1024` or more, which the code replaces by an
infinity, is outside the embedding. -/
def toDouble (q : ℚ) : ℚ :=
  let e := max (Int.log 2 |q|) (-1022) - 52
  (roundHalfEven (q / (2 : ℚ) ^ e) : ℚ) * (2 : ℚ) ^ e

namespace Binary64

/-- The function `getClickMultiplier` (lines 96-100), each product rounded. -/
def getClickMultiplier (activeBoosts : List Boost) : ℚ :=
  (activeBoosts.filter (fun b => b.type = "click_multiplier")).foldl
    (fun mult b => toDouble (mult * b.multiplier)) 1

/-- The function `getCPSMultiplier` (lines 102-106), each product rounded. -/
def getCPSMultiplier (activeBoosts : List Boost) : ℚ :=
  (activeBoosts.filter (fun b => b.type = "cps_multiplier")).foldl
    (fun mult b => toDouble (mult * b.multiplier)) 1

/-- The function `getBonusCookies` (lines 108-112), each sum rounded. -/
def getBonusCookies (activeBoosts : List Boost) : ℚ :=
  (activeBoosts.filter (fun b => b.type = "bonus_cookies")).foldl
    (fun sum b => toDouble (sum + b.multiplier)) 0

/-- The function `calculateStats` (lines 115-126): `cpc += upgrade.cpcBonus * count`
and `cps += upgrade.cpsBonus * count` in catalog order, the product and the
sum each rounded. -/
def calculateStats (UPGRADES : List Upgrade) (player : Option Player) : Stats :=
  UPGRADES.foldl
    (fun acc upgrade =>
      let count := orZero (getCount (player.bind (fun p => p.upgrades)) upgrade.id)
      { cpc := toDouble (acc.cpc + toDouble (upgrade.cpcBonus * count)),
        cps := toDouble (acc.cps + toDouble (upgrade.cpsBonus * count)) })
    { cpc := 1, cps := 0 }

/-- The constant `effectiveCpc` (line 129): `Math.floor` of the double
`baseCpc * getClickMultiplier() + getBonusCookies()`. -/
def effectiveCpc (UPGRADES : List Upgrade) (player : Option Player) (active : List Boost) : ℤ :=
  Int.floor (toDouble (toDouble ((calculateStats UPGRADES player).cpc * getClickMultiplier active)
    + getBonusCookies active))

/-- The constant `effectiveCps` (line 130): `Math.floor` of the double
`baseCps * getCPSMultiplier()`. -/
def effectiveCps (UPGRADES : List Upgrade) (player : Option Player) (active : List Boost) : ℤ :=
  Int.floor (toDouble ((calculateStats UPGRADES player).cps * getCPSMultiplier active))

/-- The balance update of `handleClick` (lines 177-180), the sum rounded. -/
def handleClick (earned : ℤ) (w : World) : World :=
  { w with cookies := toDouble (w.cookies + earned) }

end Binary64

/-! ## Reload reconciliation on any stored value -/

/-- A value of the JavaScript type Number. -/
inductive JsNumber where
  | nan
  | negInfinity
  | finite (q : ℚ)
  | posInfinity
  deriving DecidableEq, Repr

/-- What the property read `parsed.cookies` yields on a parsed JSON value other
than `null`.  A string carries the number `ToNumber` converts it to; an array or
object carries its JSON text and the number its primitive converts to.  These
conversions are built-ins, and so inputs. -/
inductive CookiesValue where
  | undefined
  | number (q : ℚ)
  | null
  | bool (b : Bool)
  | string (text : String) (toNumber : JsNumber)
  | object (json : String) (toNumber : JsNumber)
  deriving DecidableEq, Repr

/-- The conversion `ToNumber` applied by `>` to its left operand. -/
def CookiesValue.toNumber : CookiesValue → JsNumber
  | .undefined => .nan
  | .number q => .finite q
  | .null => .finite 0
  | .bool b => .finite (if b then 1 else 0)
  | .string _ n => n
  | .object _ n => n

/-- The comparison `parsed.cookies > freshPlayer.cookies` (line 59), the right
operand being a number: both sides are compared as numbers, and a comparison
with `NaN` is false. -/
def CookiesValue.greaterThan (v : CookiesValue) (serverCookies : ℚ) : Bool :=
  match v.toNumber with
  | .nan => false
  | .negInfinity => false
  | .finite q => decide (serverCookies < q)
  | .posInfinity => true

/-- A string stored in `localStorage`, with the outcome of `JSON.parse` on it:
as `Stored`, with any value for the `cookies` property. -/
inductive StoredText where
  | empty
  | unparsable
  | jsonNull
  | json (cookies : CookiesValue)
  deriving DecidableEq, Repr

/-- The calls the reload effect makes, in order. -/
inductive Command where
  | setCookies (value : CookiesValue)
  | playerUpdate (id : String) (cookies : CookiesValue)
  | removeItem (key : String)
  | setPlayer (player : Player)
  | setItem (key : String) (player : Player)
  deriving DecidableEq, Repr

/-- The effect on `freshPlayer` (lines 52-68) as the sequence of calls it makes,
`getItem` being `localStorage.getItem`.  Both places that can throw come before
the first call. -/
def reloadCommands (freshPlayer : Option Player) (getItem : String → Option StoredText) :
    Except JsError (List Command) :=
  match freshPlayer with
  | none => .ok []
  | some fresh =>
    let adopt : List Command := [.setPlayer fresh, .setItem "cookiePlayer" fresh]
    match getItem (cacheKey fresh.id) with
    | none => .ok adopt
    | some .empty => .ok adopt
    | some .unparsable => .error .syntaxError
    | some .jsonNull => .error .typeError
    | some (.json c) =>
      let higher : List Command :=
        if c.greaterThan fresh.cookies then [.setCookies c, .playerUpdate fresh.id c] else []
      .ok (higher ++ [.removeItem (cacheKey fresh.id)] ++ adopt)

/-- The value of a number-or-undefined property read. -/
def JsNum.toValue : JsNum → CookiesValue
  | .undefined => .undefined
  | .num q => .number q

/-- A `Stored` value as a `StoredText`. -/
def Stored.toText : Stored → StoredText
  | .empty => .empty
  | .unparsable => .unparsable
  | .jsonNull => .jsonNull
  | .json c => .json c.toValue

/-- A call of the reload effect carried out on a session whose balance is a
number.  A non-number handed to `setCookies` or `Player.update` has no place
in `World`; no `Stored` value leads to such a call. -/
def Command.apply (w : World) : Command → World
  | .setCookies (.number q) => { w with cookies := q }
  | .setCookies _ => w
  | .playerUpdate id (.number q) => { w with sent := w.sent ++ [.updateCookies id q] }
  | .playerUpdate _ _ => w
  | .removeItem key => { w with cache := CookieClan.removeItem key w.cache }
  | .setPlayer player => { w with player := some player }
  | .setItem _ player => { w with savedPlayer := some player }

/-! ## Sample data -/

/-- A catalog entry used in the examples. -/
def cursor : Upgrade := { id := "cursor", cpcBonus := 1 / 10, cpsBonus := 0 }

/-- A player owning two cursors. -/
def samplePlayer : Player :=
  { id := "p1", cookies := 5, upgrades := some [("cursor", 2)], is_vip := false,
    membership := none }

/-- A session of `samplePlayer` holding 10 cookies, with nothing cached. -/
def sampleWorld : World :=
  { player := some samplePlayer, cookies := 10, cache := [], savedPlayer := some samplePlayer,
    sent := [] }

/-- A session of `samplePlayer` holding 10 cookies, with the given value
stored under the player's cache key. -/
def cachedWorld (stored : Stored) : World :=
  { sampleWorld with cache := [(cacheKey "p1", stored)] }

/-- A click multiplier of 2.5 expiring at time 100. -/
def clickBoost : Boost :=
  { name := "Happy hour", type := "click_multiplier", multiplier := 5 / 2, expires_at := 100 }

/-- A flat bonus of 0.4 expiring at time 100. -/
def bonusBoost : Boost :=
  { name := "Free sprinkles", type := "bonus_cookies", multiplier := 2 / 5, expires_at := 100 }

/-- A passive multiplier of 3 expiring at time 50. -/
def cpsBoost : Boost :=
  { name := "Oven rush", type := "cps_multiplier", multiplier := 3, expires_at := 50 }

/-- A click multiplier of 2 expiring at time 100. -/
def doubleBoost : Boost :=
  { name := "Double clicks", type := "click_multiplier", multiplier := 2, expires_at := 100 }

/-- A player owning ten cursors. -/
def tenCursorPlayer : Player :=
  { id := "p2", cookies := 0, upgrades := some [("cursor", 10)], is_vip := false,
    membership := some "silver" }

/-- A session of `tenCursorPlayer` holding 7 cookies. -/
def tenCursorWorld : World :=
  { player := some tenCursorPlayer, cookies := 7, cache := [], savedPlayer := none, sent := [] }

/-- The catalog entry `cursor` with the double `0.1` as its click bonus. -/
def cursorDouble : Upgrade := { id := "cursor", cpcBonus := toDouble (1 / 10), cpsBonus := 0 }

/-- A catalog entry with the double `0.7` as its click bonus. -/
def ovenDouble : Upgrade := { id := "oven", cpcBonus := toDouble (7 / 10), cpsBonus := 0 }

/-- A player owning seven ovens and one cursor. -/
def ovenPlayer : Player :=
  { id := "p3", cookies := 0, upgrades := some [("oven", 7), ("cursor", 1)], is_vip := false,
    membership := none }

/-- A click multiplier of `0.7` (the double) expiring at time 100. -/
def slowBoost : Boost :=
  { name := "Sticky fingers", type := "click_multiplier", multiplier := toDouble (7 / 10),
    expires_at := 100 }

/-- A click multiplier of 10 expiring at time 100. -/
def tenfoldBoost : Boost :=
  { name := "Sugar rush", type := "click_multiplier", multiplier := 10, expires_at := 100 }

/-- A flat bonus of `0.4` (the double) expiring at time 100. -/
def bonusBoostDouble : Boost :=
  { name := "Free sprinkles", type := "bonus_cookies", multiplier := toDouble (2 / 5),
    expires_at := 100 }

/-- A catalog entry with the double `0.15` as its click bonus. -/
def whiskDouble : Upgrade := { id := "whisk", cpcBonus := toDouble (3 / 20), cpsBonus := 0 }

/-- A player owning one whisk. -/
def whiskPlayer : Player :=
  { id := "p4", cookies := 0, upgrades := some [("whisk", 1)], is_vip := false,
    membership := none }

/-- A click multiplier of 100 expiring at time 100. -/
def hundredfoldBoost : Boost :=
  { name := "Cookie storm", type := "click_multiplier", multiplier := 100, expires_at := 100 }

/-- A session without a player holding `2 ^ 53` cookies. -/
def richWorld : World :=
  { player := none, cookies := 2 ^ 53, cache := [], savedPlayer := none, sent := [] }

/-- A `localStorage` holding one value, under the cache key of `samplePlayer`. -/
def storageWith (stored : StoredText) : String → Option StoredText :=
  fun key => if key = cacheKey "p1" then some stored else none

/-! ## Lemmas on the helpers -/

theorem orZero_eq_getD (v : Option ℚ) : orZero v = v.getD 0 := by
  cases v with
  | none => rfl
  | some q =>
    by_cases h : q = 0
    · simp [orZero, h]
    · simp [orZero, h]

theorem getCount_some (u : Upgrades) (id : String) : getCount (some u) id = u.lookup id := rfl

theorem lookup_setKey_self (k : String) (v : ℚ) (u : Upgrades) :
    (setKey k v u).lookup k = some v := by
  induction u with
  | nil => simp [setKey, List.lookup]
  | cons e rest ih =>
    obtain ⟨k', v'⟩ := e
    by_cases h : k' = k
    · simp [setKey, h, List.lookup]
    · have h' : (k == k') = false := by simpa using fun e => h e.symm
      simp [setKey, h, List.lookup, h', ih]

theorem lookup_setKey_other (k : String) (v : ℚ) (u : Upgrades) (j : String) (hj : j ≠ k) :
    (setKey k v u).lookup j = u.lookup j := by
  induction u with
  | nil =>
    have h' : (j == k) = false := by simpa using hj
    simp [setKey, List.lookup, h']
  | cons e rest ih =>
    obtain ⟨k', v'⟩ := e
    by_cases h : k' = k
    · subst h
      have h' : (j == k') = false := by simpa using hj
      simp [setKey, List.lookup, h']
    · by_cases hjk : j = k'
      · subst hjk
        simp [setKey, h, List.lookup]
      · have h' : (j == k') = false := by simpa using hjk
        simp [setKey, h, List.lookup, h', ih]

/-! ## C1, C5: purchase -/

/-- C1 at its failing input: on `sampleWorld` (10 cookies, two cursors) a
purchase of a cursor at cost 4 whose remote update rejects has a non-negative
cost not above the balance, and leaves the balance at 10 - 4 while the cursor
count is still 2, not 2 + 1. -/
theorem handlePurchase_count_not_incremented_on_rejection :
    (0 : ℚ) ≤ 4 ∧ (4 : ℚ) ≤ sampleWorld.cookies ∧
    (handlePurchase cursor 4 .rejects sampleWorld).1.cookies = sampleWorld.cookies - 4 ∧
    getCount (((handlePurchase cursor 4 .rejects sampleWorld).1.player).bind
        (fun p => p.upgrades)) cursor.id
      ≠ some ((getCount samplePlayer.upgrades cursor.id).getD 0 + 1) := by
  simp [handlePurchase, sampleWorld, samplePlayer, cursor, getCount, List.lookup]
  norm_num

/-- The purchase on its two other paths: for every session with a player and
every purchase of non-negative cost, if `cost <= balance` and the remote update
resolves, the handler completes, the balance afterwards is exactly
`balance - cost`, the count of the purchased upgrade is exactly its previous
count (0 when absent) plus 1 and every other count is unchanged; if
`cost > balance` the purchase is declined and the whole session is unchanged,
however the remote call would settle. -/
theorem handlePurchase_spec (w : World) (player : Player) (upgrade : Upgrade) (cost : ℚ)
    (remote : RemoteOutcome) (hplayer : w.player = some player) (_hcost : 0 ≤ cost) :
    (cost ≤ w.cookies →
      (handlePurchase upgrade cost .resolves w).2 = .completed ∧
      (handlePurchase upgrade cost .resolves w).1.cookies = w.cookies - cost ∧
      getCount (((handlePurchase upgrade cost .resolves w).1.player).bind
          (fun p => p.upgrades)) upgrade.id
        = some ((getCount player.upgrades upgrade.id).getD 0 + 1) ∧
      ∀ other : String, other ≠ upgrade.id →
        getCount (((handlePurchase upgrade cost .resolves w).1.player).bind
            (fun p => p.upgrades)) other
          = getCount player.upgrades other) ∧
    (w.cookies < cost → handlePurchase upgrade cost remote w = (w, .declined)) := by
  refine ⟨fun hle => ?_, fun hlt => ?_⟩
  · have hnot : ¬ w.cookies < cost := not_lt.mpr hle
    simp only [handlePurchase, hnot, if_false, hplayer, Option.map_some', Option.some_bind,
      getCount_some, true_and]
    refine ⟨?_, ?_⟩
    · rw [lookup_setKey_self, orZero_eq_getD]
    · intro other hother
      rw [lookup_setKey_other _ _ _ _ hother]
      cases player.upgrades <;> rfl
  · simp [handlePurchase, hlt]

/-- An instance of `handlePurchase_spec` on `sampleWorld`: a cursor bought at
cost 4, and a purchase at cost 11 declined. -/
theorem handlePurchase_spec_witness :
    sampleWorld.player = some samplePlayer ∧ (0 : ℚ) ≤ 4 ∧ (4 : ℚ) ≤ sampleWorld.cookies ∧
    (handlePurchase cursor 4 .resolves sampleWorld).2 = .completed ∧
    (handlePurchase cursor 4 .resolves sampleWorld).1.cookies = sampleWorld.cookies - 4 ∧
    getCount (((handlePurchase cursor 4 .resolves sampleWorld).1.player).bind
        (fun p => p.upgrades)) cursor.id
      = some ((getCount samplePlayer.upgrades cursor.id).getD 0 + 1) ∧
    getCount (((handlePurchase cursor 4 .resolves sampleWorld).1.player).bind
        (fun p => p.upgrades)) "grandma" = getCount samplePlayer.upgrades "grandma" ∧
    sampleWorld.cookies < 11 ∧
    handlePurchase cursor 11 .rejects sampleWorld = (sampleWorld, .declined) :=
  have h := (handlePurchase_spec sampleWorld samplePlayer cursor 4 .resolves rfl
    (by norm_num)).1 (by norm_num [sampleWorld])
  ⟨rfl, by norm_num, by norm_num [sampleWorld], h.1, h.2.1, h.2.2.1,
    h.2.2.2 "grandma" (by decide), by norm_num [sampleWorld],
    (handlePurchase_spec sampleWorld samplePlayer cursor 11 .rejects rfl (by norm_num)).2
      (by norm_num [sampleWorld])⟩

/-- C5 at its failing input: on `sampleWorld` a purchase of a cursor at cost 10
(the whole balance) whose remote update rejects ends with an exception, the
balance decreased from 10 to 0 and the cursor count still 2: the balance
changed and the count did not. -/
theorem handlePurchase_not_atomic_on_rejection :
    (10 : ℚ) ≤ sampleWorld.cookies ∧
    (handlePurchase cursor 10 .rejects sampleWorld).2 = .threw .remoteRejection ∧
    (handlePurchase cursor 10 .rejects sampleWorld).1.cookies = 0 ∧
    sampleWorld.cookies = 10 ∧
    getCount (((handlePurchase cursor 10 .rejects sampleWorld).1.player).bind
        (fun p => p.upgrades)) cursor.id = some 2 ∧
    getCount samplePlayer.upgrades cursor.id = some 2 := by
  simp [handlePurchase, sampleWorld, samplePlayer, cursor, getCount, List.lookup]

/-! ## C2: reload reconciliation -/

theorem lookup_removeItem (key : String) (cache : List (String × Stored)) :
    (removeItem key cache).lookup key = none := by
  induction cache with
  | nil => rfl
  | cons e rest ih =>
    obtain ⟨k, v⟩ := e
    by_cases h : k = key
    · simpa [removeItem, h] using ih
    · have h' : (key == k) = false := by simpa using fun e => h e.symm
      simpa [removeItem, h, List.lookup, h'] using ih

/-- C2, as stated, fails: in a session holding 10 cookies, reconciling with a
server record of 5 cookies leaves the balance at 10, both with nothing cached
(the claim says 5) and with a cached record of 3 cookies (the claim says
`max 5 3 = 5`). -/
theorem freshPlayerEffect_keeps_session_balance :
    sampleWorld.cache.lookup (cacheKey samplePlayer.id) = none ∧
    (freshPlayerEffect (some samplePlayer) sampleWorld).map (fun w => w.cookies) = .ok 10 ∧
    (10 : ℚ) ≠ samplePlayer.cookies ∧
    (cachedWorld (.json (.num 3))).cache.lookup (cacheKey samplePlayer.id)
      = some (.json (.num 3)) ∧
    (freshPlayerEffect (some samplePlayer) (cachedWorld (.json (.num 3)))).map
      (fun w => w.cookies) = .ok 10 ∧
    (10 : ℚ) ≠ max samplePlayer.cookies 3 := by
  refine ⟨by decide, ?_, by norm_num [samplePlayer], by decide, ?_, by norm_num [samplePlayer]⟩
  · simp [freshPlayerEffect, sampleWorld, samplePlayer, cacheKey, Except.map]
  · simp [freshPlayerEffect, cachedWorld, sampleWorld, samplePlayer, cacheKey, Except.map,
      List.lookup, jsGt]
    norm_num

/-- C2, amended: for every session, every server record `s` and every
optional cached record with a numeric `cookies` field `c`, the reconciliation
step completes, and the balance afterwards is `c` when the record is present
with `c > s.cookies` (then `c = max s.cookies c`), and otherwise is the balance
the session held before the step: the server's `cookies` are never copied into
the balance. -/
theorem freshPlayerEffect_balance (w : World) (s : Player) (cached : Option ℚ)
    (hcache : w.cache.lookup (cacheKey s.id) = cached.map (fun c => Stored.json (.num c))) :
    (freshPlayerEffect (some s) w).map (fun w1 => w1.cookies)
      = .ok (match cached with
          | some c => if s.cookies < c then max s.cookies c else w.cookies
          | none => w.cookies) := by
  cases cached with
  | none =>
    simp only [Option.map_none'] at hcache
    simp [freshPlayerEffect, hcache, Except.map]
  | some c =>
    simp only [Option.map_some'] at hcache
    by_cases h : s.cookies < c
    · simp [freshPlayerEffect, hcache, Except.map, jsGt, h, max_eq_right (le_of_lt h)]
    · simp [freshPlayerEffect, hcache, Except.map, jsGt, h]

/-- Witness of `freshPlayerEffect_balance`: a cached record of 12 cookies
against the server's 5, in a session holding 10. -/
theorem freshPlayerEffect_balance_witness :
    (cachedWorld (.json (.num 12))).cache.lookup (cacheKey samplePlayer.id)
      = (some (12 : ℚ)).map (fun c => Stored.json (.num c)) ∧
    (freshPlayerEffect (some samplePlayer) (cachedWorld (.json (.num 12)))).map
      (fun w1 => w1.cookies) = .ok 12 := by
  have h := freshPlayerEffect_balance (cachedWorld (.json (.num 12))) samplePlayer (some 12)
    (by decide)
  refine ⟨by decide, ?_⟩
  rw [h]
  norm_num [samplePlayer]

/-- On the session: with an unparsable text stored under the player's cache key
the reconciliation step throws `SyntaxError`, and with the text `null` it
throws `TypeError`; with nothing stored it completes. -/
theorem freshPlayerEffect_throws_on_unparsable :
    (cachedWorld .unparsable).cache.lookup (cacheKey samplePlayer.id) = some .unparsable ∧
    freshPlayerEffect (some samplePlayer) (cachedWorld .unparsable) = .error .syntaxError ∧
    freshPlayerEffect (some samplePlayer) (cachedWorld .jsonNull) = .error .typeError ∧
    freshPlayerEffect (some samplePlayer) sampleWorld
      = .ok { sampleWorld with player := some samplePlayer, savedPlayer := some samplePlayer } := by
  refine ⟨by decide, ?_, ?_, ?_⟩
  · simp [freshPlayerEffect, cachedWorld, sampleWorld, samplePlayer, cacheKey, List.lookup]
  · simp [freshPlayerEffect, cachedWorld, sampleWorld, samplePlayer, cacheKey, List.lookup]
  · simp [freshPlayerEffect, sampleWorld, samplePlayer, cacheKey, List.lookup]

/-- On the session, for every server record `s` and value stored under the key
`'cookiePlayerData_' + s.id`:
* a value parsing to a record without a `cookies` field: the step completes
  exactly as on the session with that key removed, adopting `s` as the player,
  keeping the balance, issuing no server update and leaving the key removed;
* the empty string: the step completes as with nothing stored (the string stays);
* an unparsable text, or the text `null`: the step throws (`SyntaxError`,
  `TypeError`) before any update, so that `s` is not adopted and the value stays
  stored. -/
theorem freshPlayerEffect_malformed (w : World) (s : Player) (stored : Stored)
    (hstored : w.cache.lookup (cacheKey s.id) = some stored) :
    (stored = .json .undefined →
      freshPlayerEffect (some s) w
        = freshPlayerEffect (some s) { w with cache := removeItem (cacheKey s.id) w.cache } ∧
      freshPlayerEffect (some s) w
        = .ok { player := some s, cookies := w.cookies,
                cache := removeItem (cacheKey s.id) w.cache, savedPlayer := some s,
                sent := w.sent }) ∧
    (stored = .empty →
      freshPlayerEffect (some s) w = .ok { w with player := some s, savedPlayer := some s }) ∧
    (stored = .unparsable → freshPlayerEffect (some s) w = .error .syntaxError) ∧
    (stored = .jsonNull → freshPlayerEffect (some s) w = .error .typeError) := by
  refine ⟨?_, ?_, ?_, ?_⟩
  · rintro rfl
    have hrem := lookup_removeItem (cacheKey s.id) w.cache
    simp [freshPlayerEffect, hstored, hrem, jsGt]
  · rintro rfl
    simp [freshPlayerEffect, hstored]
  · rintro rfl
    simp [freshPlayerEffect, hstored]
  · rintro rfl
    simp [freshPlayerEffect, hstored]

/-- An instance of `freshPlayerEffect_malformed`: a stored record without a
`cookies` field, in the session of `samplePlayer`. -/
theorem freshPlayerEffect_malformed_witness :
    (cachedWorld (.json .undefined)).cache.lookup (cacheKey samplePlayer.id)
      = some (.json .undefined) ∧
    freshPlayerEffect (some samplePlayer) (cachedWorld (.json .undefined))
      = .ok { player := some samplePlayer, cookies := (cachedWorld (.json .undefined)).cookies,
              cache := removeItem (cacheKey samplePlayer.id)
                (cachedWorld (.json .undefined)).cache,
              savedPlayer := some samplePlayer,
              sent := (cachedWorld (.json .undefined)).sent } :=
  ⟨by decide,
    ((freshPlayerEffect_malformed (cachedWorld (.json .undefined)) samplePlayer
      (.json .undefined) (by decide)).1 rfl).2⟩

/-! ## C4: the balance stays non-negative -/

theorem handlePurchase_cookies_nonneg (upgrade : Upgrade) (cost : ℚ) (remote : RemoteOutcome)
    (w : World) (h0 : 0 ≤ w.cookies) : 0 ≤ (handlePurchase upgrade cost remote w).1.cookies := by
  unfold handlePurchase
  by_cases hlt : w.cookies < cost
  · simpa [hlt] using h0
  · have hge : 0 ≤ w.cookies - cost := sub_nonneg.mpr (not_lt.mp hlt)
    cases hp : w.player with
    | none => simpa [hlt, hp] using hge
    | some player => cases remote <;> simpa [hlt, hp] using hge

theorem freshPlayerEffect_cookies_nonneg (fresh : Option Player) (w w1 : World)
    (h0 : 0 ≤ w.cookies) (hfresh : Admissible w (.reload fresh))
    (hok : freshPlayerEffect fresh w = .ok w1) : 0 ≤ w1.cookies := by
  cases fresh with
  | none =>
    simp only [freshPlayerEffect, Except.ok.injEq] at hok
    exact hok ▸ h0
  | some s =>
    have hs : 0 ≤ s.cookies := hfresh
    simp only [freshPlayerEffect] at hok
    split at hok
    · simp only [Except.ok.injEq] at hok
      exact hok ▸ h0
    · simp only [Except.ok.injEq] at hok
      exact hok ▸ h0
    · exact absurd hok (by simp)
    · exact absurd hok (by simp)
    · rename_i c _
      simp only [Except.ok.injEq] at hok
      subst hok
      cases c with
      | undefined => simpa [jsGt] using h0
      | num q =>
        by_cases hq : s.cookies < q
        · simpa [jsGt, hq] using le_of_lt (lt_of_le_of_lt hs hq)
        · simpa [jsGt, hq] using h0

theorem step_cookies_nonneg (w : World) (op : Op) (h0 : 0 ≤ w.cookies)
    (hadm : Admissible w op) : 0 ≤ (step w op).cookies := by
  cases op with
  | click U boosts now =>
    have he : (0 : ℚ) ≤ (effectiveCpc U w.player (activeBoosts boosts now) : ℚ) := by
      exact_mod_cast hadm
    simpa [step, handleClick] using add_nonneg h0 he
  | passiveTick U boosts now dt =>
    simp only [step, tick]
    split
    · exact h0
    · rename_i hpos
      have he : (0 : ℚ) ≤ (effectiveCps U w.player (activeBoosts boosts now) : ℚ) := by
        exact_mod_cast le_of_lt (not_le.mp hpos)
      exact add_nonneg h0 he
  | purchase upgrade cost remote =>
    exact handlePurchase_cookies_nonneg upgrade cost remote w h0
  | reload fresh =>
    simp only [step]
    cases hres : freshPlayerEffect fresh w with
    | error e => exact h0
    | ok w1 => exact freshPlayerEffect_cookies_nonneg fresh w w1 h0 hadm hres
  | cookiesChange amount =>
    simpa [step, onCookiesChange] using hadm

/-- C4, as stated, fails: from `sampleWorld` (10 cookies) the friends panel's
`onCookiesChange(-15)` is not rejected and leaves the balance at -5. -/
theorem onCookiesChange_makes_balance_negative :
    0 ≤ sampleWorld.cookies ∧
    (run sampleWorld [.cookiesChange (-15)]).cookies = -5 ∧
    (run sampleWorld [.cookiesChange (-15)]).cookies < 0 ∧
    run sampleWorld [.cookiesChange (-15)] ≠ sampleWorld := by
  have h : (run sampleWorld [.cookiesChange (-15)]).cookies = -5 := by
    simp [run, step, onCookiesChange, sampleWorld]
    norm_num
  refine ⟨by norm_num [sampleWorld], h, by rw [h]; norm_num, ?_⟩
  intro heq
  rw [heq] at h
  norm_num [sampleWorld] at h

/-- C4, amended: starting from a balance `>= 0`, every sequence of clicks,
passive ticks, upgrade purchases, reload reconciliations and `onCookiesChange`
calls in which each click has a non-negative click value, each reload a server
record with non-negative `cookies`, and each `onCookiesChange(amount)` has
`balance + amount >= 0`, ends with a balance `>= 0`; and in the session
reached, every purchase costing more than the balance is declined and changes
nothing. -/
theorem run_cookies_nonneg (w : World) (ops : List Op) (h0 : 0 ≤ w.cookies)
    (hadm : AdmissibleRun w ops) :
    0 ≤ (run w ops).cookies ∧
    ∀ (upgrade : Upgrade) (cost : ℚ) (remote : RemoteOutcome), (run w ops).cookies < cost →
      handlePurchase upgrade cost remote (run w ops) = (run w ops, .declined) := by
  constructor
  · induction ops generalizing w with
    | nil => simpa [run] using h0
    | cons op ops ih =>
      have hstep := step_cookies_nonneg w op h0 hadm.1
      simpa [run] using ih (step w op) hstep hadm.2
  · intro upgrade cost remote hlt
    simp [handlePurchase, hlt]

/-- Witness of `run_cookies_nonneg`: from `sampleWorld`, a cursor bought at
cost 4 and then `onCookiesChange(-6)` leave a balance of 0, where a purchase
at cost 1 is declined. -/
theorem run_cookies_nonneg_witness :
    0 ≤ sampleWorld.cookies ∧
    AdmissibleRun sampleWorld [.purchase cursor 4 .resolves, .cookiesChange (-6)] ∧
    0 ≤ (run sampleWorld [.purchase cursor 4 .resolves, .cookiesChange (-6)]).cookies ∧
    handlePurchase cursor 1 .rejects
        (run sampleWorld [.purchase cursor 4 .resolves, .cookiesChange (-6)])
      = (run sampleWorld [.purchase cursor 4 .resolves, .cookiesChange (-6)], .declined) := by
  have h0 : 0 ≤ sampleWorld.cookies := by norm_num [sampleWorld]
  have hadm : AdmissibleRun sampleWorld [.purchase cursor 4 .resolves, .cookiesChange (-6)] := by
    simp [AdmissibleRun, Admissible, step, handlePurchase, sampleWorld]
    norm_num
  have h := run_cookies_nonneg sampleWorld
    [.purchase cursor 4 .resolves, .cookiesChange (-6)] h0 hadm
  refine ⟨h0, hadm, h.1, h.2 cursor 1 .rejects ?_⟩
  simp [run, step, handlePurchase, onCookiesChange, sampleWorld]
  norm_num

/-! ## C6: active boosts -/

/-- C6: for every list of boosts and every time `now`, `activeBoosts` holds
exactly the boosts of the list with `expires_at > now`: a boost is in it iff it
is in the list with `expires_at > now`, no boost with `expires_at <= now` (so
none with `expires_at = now`) is in it, each kept boost occurs as often as in
the list, and it is a sublist of the list (the relative order is kept). -/
theorem activeBoosts_spec (boosts : List Boost) (now : ℤ) :
    (∀ b : Boost, b ∈ activeBoosts boosts now ↔ b ∈ boosts ∧ b.expires_at > now) ∧
    (∀ b : Boost, b.expires_at ≤ now → b ∉ activeBoosts boosts now) ∧
    (∀ b : Boost, b.expires_at > now →
      (activeBoosts boosts now).count b = boosts.count b) ∧
    List.Sublist (activeBoosts boosts now) boosts := by
  refine ⟨?_, ?_, ?_, ?_⟩
  · intro b
    simp [activeBoosts, List.mem_filter]
  · intro b hb hmem
    have hgt : b.expires_at > now := by
      simpa using (List.mem_filter.mp hmem).2
    exact absurd hgt (not_lt.mpr hb)
  · intro b hb
    unfold activeBoosts
    rw [List.count_filter]
    simpa using hb
  · exact List.filter_sublist boosts

/-! ## C7: multipliers, and the effective rates in exact arithmetic -/

theorem foldl_mul_multiplier (l : List Boost) (init : ℚ) :
    l.foldl (fun mult b => mult * b.multiplier) init
      = init * (l.map (fun b => b.multiplier)).prod := by
  induction l generalizing init with
  | nil => simp
  | cons b rest ih => simp [List.foldl_cons, ih, mul_assoc]

theorem foldl_add_multiplier (l : List Boost) (init : ℚ) :
    l.foldl (fun sum b => sum + b.multiplier) init
      = init + (l.map (fun b => b.multiplier)).sum := by
  induction l generalizing init with
  | nil => simp
  | cons b rest ih => simp [List.foldl_cons, ih, add_assoc]

theorem getClickMultiplier_eq_prod (active : List Boost) :
    getClickMultiplier active
      = ((active.filter (fun b => b.type = "click_multiplier")).map
          (fun b => b.multiplier)).prod := by
  simp [getClickMultiplier, foldl_mul_multiplier]

theorem getCPSMultiplier_eq_prod (active : List Boost) :
    getCPSMultiplier active
      = ((active.filter (fun b => b.type = "cps_multiplier")).map
          (fun b => b.multiplier)).prod := by
  simp [getCPSMultiplier, foldl_mul_multiplier]

theorem getBonusCookies_eq_sum (active : List Boost) :
    getBonusCookies active
      = ((active.filter (fun b => b.type = "bonus_cookies")).map
          (fun b => b.multiplier)).sum := by
  simp [getBonusCookies, foldl_add_multiplier]

/-- C7: for every list of active boosts and every permutation of it,
`getClickMultiplier`, `getCPSMultiplier` and `getBonusCookies` return the same
value on both; on the list, the click and cps multipliers are the product of the
factors of the boosts of the matching type and the bonus is their sum. -/
theorem multipliers_perm (active permuted : List Boost) (hperm : List.Perm active permuted) :
    getClickMultiplier active = getClickMultiplier permuted ∧
    getCPSMultiplier active = getCPSMultiplier permuted ∧
    getBonusCookies active = getBonusCookies permuted ∧
    getClickMultiplier active
      = ((active.filter (fun b => b.type = "click_multiplier")).map
          (fun b => b.multiplier)).prod ∧
    getCPSMultiplier active
      = ((active.filter (fun b => b.type = "cps_multiplier")).map
          (fun b => b.multiplier)).prod ∧
    getBonusCookies active
      = ((active.filter (fun b => b.type = "bonus_cookies")).map
          (fun b => b.multiplier)).sum := by
  refine ⟨?_, ?_, ?_, getClickMultiplier_eq_prod active, getCPSMultiplier_eq_prod active,
    getBonusCookies_eq_sum active⟩
  · rw [getClickMultiplier_eq_prod, getClickMultiplier_eq_prod]
    exact ((hperm.filter _).map _).prod_eq
  · rw [getCPSMultiplier_eq_prod, getCPSMultiplier_eq_prod]
    exact ((hperm.filter _).map _).prod_eq
  · rw [getBonusCookies_eq_sum, getBonusCookies_eq_sum]
    exact ((hperm.filter _).map _).sum_eq

/-- Witness of `multipliers_perm`: three boosts and the same boosts rotated. -/
theorem multipliers_perm_witness :
    List.Perm [clickBoost, bonusBoost, cpsBoost] [bonusBoost, cpsBoost, clickBoost] ∧
    getClickMultiplier [clickBoost, bonusBoost, cpsBoost]
      = getClickMultiplier [bonusBoost, cpsBoost, clickBoost] ∧
    getCPSMultiplier [clickBoost, bonusBoost, cpsBoost]
      = getCPSMultiplier [bonusBoost, cpsBoost, clickBoost] ∧
    getBonusCookies [clickBoost, bonusBoost, cpsBoost]
      = getBonusCookies [bonusBoost, cpsBoost, clickBoost] :=
  have hperm : List.Perm [clickBoost, bonusBoost, cpsBoost]
      [bonusBoost, cpsBoost, clickBoost] :=
    (List.perm_append_comm :
      List.Perm ([clickBoost] ++ [bonusBoost, cpsBoost]) ([bonusBoost, cpsBoost] ++ [clickBoost]))
  have h := multipliers_perm _ _ hperm
  ⟨hperm, h.1, h.2.1, h.2.2.1⟩

/-- In exact arithmetic, for every catalog, player and list of active boosts,
`effectiveCpc = floor(baseCpc * clickMultiplier + bonusFlat)` and
`effectiveCps = floor(baseCps * cpsMultiplier)`, the multipliers being the
products of the factors of the active click and cps boosts and `bonusFlat` the
sum of the factors of the active bonus boosts; over the exact values 1, 2.5 and
0.4 the result is 2. -/
theorem effective_rates_spec (UPGRADES : List Upgrade) (player : Option Player)
    (active : List Boost) :
    effectiveCpc UPGRADES player active
      = Int.floor ((calculateStats UPGRADES player).cpc
          * ((active.filter (fun b => b.type = "click_multiplier")).map
              (fun b => b.multiplier)).prod
          + ((active.filter (fun b => b.type = "bonus_cookies")).map
              (fun b => b.multiplier)).sum) ∧
    effectiveCps UPGRADES player active
      = Int.floor ((calculateStats UPGRADES player).cps
          * ((active.filter (fun b => b.type = "cps_multiplier")).map
              (fun b => b.multiplier)).prod) ∧
    effectiveCpc UPGRADES player []
      = Int.floor ((calculateStats UPGRADES player).cpc * 1 + 0) ∧
    effectiveCps UPGRADES player [] = Int.floor ((calculateStats UPGRADES player).cps * 1) ∧
    (calculateStats [] none).cpc = 1 ∧
    getClickMultiplier [clickBoost, bonusBoost] = 5 / 2 ∧
    getBonusCookies [clickBoost, bonusBoost] = 2 / 5 ∧
    effectiveCpc [] none [clickBoost, bonusBoost] = 2 := by
  have hc : getClickMultiplier [clickBoost, bonusBoost] = 5 / 2 := by
    simp [getClickMultiplier, clickBoost, bonusBoost]
  have hb : getBonusCookies [clickBoost, bonusBoost] = 2 / 5 := by
    simp [getBonusCookies, clickBoost, bonusBoost]
  refine ⟨?_, ?_, ?_, ?_, ?_, hc, hb, ?_⟩
  · rw [effectiveCpc, getClickMultiplier_eq_prod, getBonusCookies_eq_sum]
  · rw [effectiveCps, getCPSMultiplier_eq_prod]
  · simp [effectiveCpc, getClickMultiplier, getBonusCookies]
  · simp [effectiveCps, getCPSMultiplier]
  · simp [calculateStats]
  · rw [effectiveCpc, hc, hb]
    have h1 : (calculateStats [] none).cpc = 1 := by simp [calculateStats]
    rw [h1, Int.floor_eq_iff]
    norm_num

/-! ## Base rates in exact arithmetic -/

theorem calculateStats_foldl (UPGRADES : List Upgrade) (upgrades : Option Upgrades)
    (acc : Stats) :
    UPGRADES.foldl
        (fun acc upgrade =>
          ({ cpc := acc.cpc + upgrade.cpcBonus * orZero (getCount upgrades upgrade.id),
             cps := acc.cps + upgrade.cpsBonus * orZero (getCount upgrades upgrade.id) } : Stats))
        acc
      = { cpc := acc.cpc
            + (UPGRADES.map (fun u => (getCount upgrades u.id).getD 0 * u.cpcBonus)).sum,
          cps := acc.cps
            + (UPGRADES.map (fun u => (getCount upgrades u.id).getD 0 * u.cpsBonus)).sum } := by
  induction UPGRADES generalizing acc with
  | nil => simp
  | cons u rest ih =>
    rw [List.foldl_cons, ih]
    simp only [List.map_cons, List.sum_cons, orZero_eq_getD]
    congr 1 <;> ring

/-- In exact arithmetic, for every catalog and every player, `calculateStats`
returns `cpc = 1 + Σ count[u] * u.cpcBonus` and `cps = Σ count[u] * u.cpsBonus`
over the catalog entries `u`, an upgrade without an entry counting as 0. -/
theorem calculateStats_spec (UPGRADES : List Upgrade) (player : Option Player) (p : Player) :
    calculateStats UPGRADES player
      = { cpc := 1 + (UPGRADES.map (fun u =>
            (getCount (player.bind (fun q => q.upgrades)) u.id).getD 0 * u.cpcBonus)).sum,
          cps := (UPGRADES.map (fun u =>
            (getCount (player.bind (fun q => q.upgrades)) u.id).getD 0 * u.cpsBonus)).sum } ∧
    calculateStats UPGRADES none = { cpc := 1, cps := 0 } ∧
    calculateStats UPGRADES (some { p with upgrades := none }) = { cpc := 1, cps := 0 } ∧
    calculateStats UPGRADES (some { p with upgrades := some [] }) = { cpc := 1, cps := 0 } := by
  have hgen : ∀ pl : Option Player, calculateStats UPGRADES pl
      = { cpc := 1 + (UPGRADES.map (fun u =>
            (getCount (pl.bind (fun q => q.upgrades)) u.id).getD 0 * u.cpcBonus)).sum,
          cps := (UPGRADES.map (fun u =>
            (getCount (pl.bind (fun q => q.upgrades)) u.id).getD 0 * u.cpsBonus)).sum } := by
    intro pl
    unfold calculateStats
    rw [calculateStats_foldl]
    simp
  refine ⟨hgen player, ?_, ?_, ?_⟩
  · rw [hgen]
    simp [getCount]
  · rw [hgen]
    simp [getCount]
  · rw [hgen]
    simp [getCount, List.lookup]

/-! ## C10: passive tick -/

/-- C10, as stated, fails: with `effectiveCps = 3`, a firing of the interval 2
seconds after the previous one takes `sampleWorld` from 10 cookies to 13, not to
`10 + 3 * 2 = 16`. -/
theorem tick_ignores_elapsed_time :
    (tick 3 2 sampleWorld).cookies = 13 ∧
    (tick 3 2 sampleWorld).cookies ≠ sampleWorld.cookies + ((3 : ℤ) : ℚ) * 2 := by
  have h : (tick 3 2 sampleWorld).cookies = 13 := by
    simp [tick, sampleWorld]
    norm_num
  refine ⟨h, ?_⟩
  rw [h]
  norm_num [sampleWorld]

/-- C10, amended: for every session, every rate `effectiveCps > 0` and every
elapsed time, a firing of the interval sets the balance to
`balance + effectiveCps`, whatever time elapsed since the previous firing, which
is `balance + effectiveCps * elapsedSeconds` exactly when `elapsedSeconds = 1`;
and for `effectiveCps <= 0` the session is left unchanged. -/
theorem tick_spec (effectiveCps : ℤ) (elapsedSeconds : ℚ) (w : World) :
    (0 < effectiveCps →
      (tick effectiveCps elapsedSeconds w).cookies = w.cookies + effectiveCps ∧
      ((tick effectiveCps elapsedSeconds w).cookies
          = w.cookies + effectiveCps * elapsedSeconds ↔ elapsedSeconds = 1)) ∧
    (effectiveCps ≤ 0 → tick effectiveCps elapsedSeconds w = w) := by
  refine ⟨fun hpos => ?_, fun hle => ?_⟩
  · have hnot : ¬ effectiveCps ≤ 0 := not_le.mpr hpos
    have hne : (effectiveCps : ℚ) ≠ 0 := by exact_mod_cast ne_of_gt hpos
    have hval : (tick effectiveCps elapsedSeconds w).cookies = w.cookies + effectiveCps := by
      simp [tick, hnot]
    refine ⟨hval, ?_⟩
    rw [hval]
    constructor
    · intro h
      have h2 : (effectiveCps : ℚ) * 1 = effectiveCps * elapsedSeconds := by
        rw [mul_one]
        exact add_left_cancel h
      exact (mul_left_cancel₀ hne h2).symm
    · rintro rfl
      rw [mul_one]
  · simp [tick, hle]

/-- Witness of `tick_spec`: a rate of 3 and a firing after 1 second on
`sampleWorld`, and a rate of 0. -/
theorem tick_spec_witness :
    (0 : ℤ) < 3 ∧
    (tick 3 1 sampleWorld).cookies = sampleWorld.cookies + ((3 : ℤ) : ℚ) ∧
    (tick 3 1 sampleWorld).cookies = sampleWorld.cookies + ((3 : ℤ) : ℚ) * 1 ∧
    (0 : ℤ) ≤ 0 ∧ tick 0 1 sampleWorld = sampleWorld :=
  have h := (tick_spec 3 1 sampleWorld).1 (by decide)
  ⟨by decide, h.1, h.2.2 rfl, le_refl 0, (tick_spec 0 1 sampleWorld).2 (le_refl 0)⟩

/-! ## Clicks in exact arithmetic -/

theorem run_replicate_click (U : List Upgrade) (boosts : List Boost) (now : ℤ) (n : ℕ)
    (w : World) :
    (run w (List.replicate n (.click U boosts now))).cookies
        = w.cookies + n * (effectiveCpc U w.player (activeBoosts boosts now) : ℚ) ∧
      (run w (List.replicate n (.click U boosts now))).player = w.player := by
  induction n generalizing w with
  | zero => simp [run]
  | succ n ih =>
    have hstep : step w (.click U boosts now)
        = handleClick (effectiveCpc U w.player (activeBoosts boosts now)) w := rfl
    have hrun : run w (List.replicate (n + 1) (.click U boosts now))
        = run (step w (.click U boosts now)) (List.replicate n (.click U boosts now)) := by
      simp [run, List.replicate_succ]
    have hplayer : (step w (.click U boosts now)).player = w.player := by
      rw [hstep]
      rfl
    have hcookies : (step w (.click U boosts now)).cookies
        = w.cookies + (effectiveCpc U w.player (activeBoosts boosts now) : ℚ) := by
      rw [hstep]
      rfl
    obtain ⟨ih1, ih2⟩ := ih (step w (.click U boosts now))
    rw [hrun, ih1, ih2, hplayer, hcookies]
    refine ⟨?_, rfl⟩
    push_cast
    ring

/-- In exact arithmetic, `n` consecutive runs of `handleClick` with `earned = v`
increase the balance by `n * v`, and `n` consecutive clicks with nothing in
between all earn the same `effectiveCpc` and leave the player as it was. -/
theorem clicks_add (w : World) (n : ℕ) (v : ℤ) (U : List Upgrade) (boosts : List Boost)
    (now : ℤ) :
    ((handleClick v)^[n] w).cookies = w.cookies + n * (v : ℚ) ∧
    (run w (List.replicate n (.click U boosts now))).cookies
      = w.cookies + n * (effectiveCpc U w.player (activeBoosts boosts now) : ℚ) ∧
    (run w (List.replicate n (.click U boosts now))).player = w.player ∧
    (calculateStats [cursor] (some tenCursorPlayer)).cpc = 2 ∧
    effectiveCpc [cursor] (some tenCursorPlayer) (activeBoosts [doubleBoost] 0) = 4 ∧
    (run tenCursorWorld (List.replicate 3 (.click [cursor] [doubleBoost] 0))).cookies
      = tenCursorWorld.cookies + 12 := by
  have hiter : ∀ (m : ℕ) (w0 : World),
      ((handleClick v)^[m] w0).cookies = w0.cookies + m * (v : ℚ) := by
    intro m
    induction m with
    | zero => intro w0; simp
    | succ m ih =>
      intro w0
      rw [Function.iterate_succ_apply, ih]
      simp only [handleClick]
      push_cast
      ring
  have hbase : (calculateStats [cursor] (some tenCursorPlayer)).cpc = 2 := by
    simp [calculateStats, cursor, tenCursorPlayer, getCount, List.lookup, orZero]
    norm_num
  have hv : effectiveCpc [cursor] (some tenCursorPlayer) (activeBoosts [doubleBoost] 0) = 4 := by
    have hact : activeBoosts [doubleBoost] 0 = [doubleBoost] := by
      simp [activeBoosts, doubleBoost]
    have hmul : getClickMultiplier [doubleBoost] = 2 := by
      simp [getClickMultiplier, doubleBoost]
    have hbon : getBonusCookies [doubleBoost] = 0 := by
      simp [getBonusCookies, doubleBoost]
    rw [hact, effectiveCpc, hbase, hmul, hbon, Int.floor_eq_iff]
    norm_num
  refine ⟨hiter n w, (run_replicate_click U boosts now n w).1,
    (run_replicate_click U boosts now n w).2, hbase, hv, ?_⟩
  have h3 := (run_replicate_click [cursor] [doubleBoost] 0 3 tenCursorWorld).1
  have hp : tenCursorWorld.player = some tenCursorPlayer := rfl
  rw [h3, hp, hv]
  norm_num

/-! ## C12: buying a membership -/

theorem canBuyMembership_of_membership (player : Player) (item : ShopItem)
    (htype : item.type = "membership") :
    canBuyMembership player item
      = decide (indexOf membershipOrder item.value
          > indexOf membershipOrder (some (orFree player.membership))) := by
  simp [canBuyMembership, htype]

theorem isOwned_of_membership (player : Player) (item : ShopItem)
    (htype : item.type = "membership") :
    isOwned player item = decide (player.membership = item.value) := by
  simp [isOwned, htype]

/-- C12: for every player whose membership is absent or one of `free`,
`bronze`, `silver`, `gold`, `diamond` and every membership item of
`SHOP_ITEMS`, of tier `tier`, `canBuyMembership` returns true iff `tier` comes
strictly later than the player's current tier (absent counting as `free`) in
the order free < bronze < silver < gold < diamond; an item `isOwned` reports as
owned is not buyable, an item of a lower tier is not buyable, and for every item
that is not a membership `canBuyMembership` returns true. -/
theorem canBuyMembership_spec (player : Player) (item : ShopItem) (tier : String)
    (other : ShopItem)
    (hmem : player.membership ∈
      [none, some "free", some "bronze", some "silver", some "gold", some "diamond"])
    (hitem : item ∈ SHOP_ITEMS) (htype : item.type = "membership")
    (hvalue : item.value = some tier) :
    (canBuyMembership player item = true ↔ strictlyLater (currentTier player) tier = true) ∧
    (isOwned player item = true → canBuyMembership player item = false) ∧
    (strictlyLater tier (currentTier player) = true → canBuyMembership player item = false) ∧
    (other.type ≠ "membership" → canBuyMembership player other = true) := by
  refine ⟨?_, ?_, ?_, fun hother => by simp [canBuyMembership, hother]⟩
  all_goals
    rw [canBuyMembership_of_membership player item htype]
    try rw [isOwned_of_membership player item htype]
    rw [hvalue]
    try unfold currentTier
    simp only [SHOP_ITEMS, List.mem_cons, List.mem_singleton, List.not_mem_nil, or_false]
      at hitem hmem
    rcases hitem with rfl | rfl | rfl | rfl | rfl <;>
      simp only [Option.some.injEq, reduceCtorEq] at hvalue <;>
      first
        | exact absurd htype (by decide)
        | (subst hvalue
           rcases hmem with h | h | h | h | h | h <;> rw [h] <;> decide)

/-- Witness of `canBuyMembership_spec`: `tenCursorPlayer`, a silver member, can
buy the gold membership and the VIP status, and cannot buy the silver
membership it owns. -/
theorem canBuyMembership_spec_witness :
    tenCursorPlayer.membership ∈
      [none, some "free", some "bronze", some "silver", some "gold", some "diamond"] ∧
    goldMembership ∈ SHOP_ITEMS ∧ goldMembership.type = "membership" ∧
    goldMembership.value = some "gold" ∧
    strictlyLater (currentTier tenCursorPlayer) "gold" = true ∧
    canBuyMembership tenCursorPlayer goldMembership = true ∧
    canBuyMembership tenCursorPlayer vipItem = true ∧
    silverMembership ∈ SHOP_ITEMS ∧
    isOwned tenCursorPlayer silverMembership = true ∧
    canBuyMembership tenCursorPlayer silverMembership = false :=
  have hmem : tenCursorPlayer.membership ∈
      [none, some "free", some "bronze", some "silver", some "gold", some "diamond"] := by
    decide
  have hgold : goldMembership ∈ SHOP_ITEMS := by simp [SHOP_ITEMS, goldMembership]
  have hsilver : silverMembership ∈ SHOP_ITEMS := by simp [SHOP_ITEMS, silverMembership]
  have h := canBuyMembership_spec tenCursorPlayer goldMembership "gold" vipItem hmem hgold rfl rfl
  have h2 := canBuyMembership_spec tenCursorPlayer silverMembership "silver" vipItem hmem
    hsilver rfl rfl
  ⟨hmem, hgold, rfl, rfl, by decide, h.1.mpr (by decide), h.2.2.2 (by decide), hsilver,
    by decide, h2.2.1 (by decide)⟩

/-! ## Rounding to a double -/

theorem log_two_eq (r : ℚ) (L : ℤ) (hlo : (2 : ℚ) ^ L ≤ r) (hhi : r < (2 : ℚ) ^ (L + 1)) :
    Int.log 2 r = L := by
  have hr : 0 < r := lt_of_lt_of_le (zpow_pos (by norm_num) L) hlo
  have h1 : L ≤ Int.log 2 r := by
    rw [← Int.zpow_le_iff_le_log (by norm_num) hr]
    exact_mod_cast hlo
  have h2 : Int.log 2 r < L + 1 := by
    rw [← Int.lt_zpow_iff_log_lt (by norm_num) hr]
    exact_mod_cast hhi
  omega

theorem roundHalfEven_of_near (q : ℚ) (m : ℤ) (h1 : (m : ℚ) - 1 / 2 < q) (h2 : q < m + 1 / 2) :
    roundHalfEven q = m := by
  unfold roundHalfEven
  by_cases hq : (m : ℚ) ≤ q
  · have hf : Int.floor q = m := by
      rw [Int.floor_eq_iff]
      exact ⟨hq, by linarith⟩
    simp only [hf]
    rw [if_pos (by linarith)]
  · have hq' : q < m := not_le.mp hq
    have hf : Int.floor q = m - 1 := by
      rw [Int.floor_eq_iff]
      push_cast
      constructor <;> linarith
    simp only [hf]
    push_cast
    rw [if_neg (by linarith), if_pos (by linarith)]
    ring

theorem roundHalfEven_tie (m : ℤ) :
    roundHalfEven ((m : ℚ) + 1 / 2) = if m % 2 = 0 then m else m + 1 := by
  unfold roundHalfEven
  have hf : Int.floor ((m : ℚ) + 1 / 2) = m := by
    rw [Int.floor_eq_iff]
    constructor <;> linarith
  simp only [hf]
  rw [if_neg (by linarith), if_neg (by linarith)]

theorem roundHalfEven_intCast (n : ℤ) : roundHalfEven (n : ℚ) = n :=
  roundHalfEven_of_near _ n (by linarith) (by linarith)

theorem toDouble_of_exponent (q : ℚ) (e : ℤ) (hq : 0 < q) (hlo : (2 : ℚ) ^ (e + 52) ≤ q)
    (hhi : q < (2 : ℚ) ^ (e + 53)) (he : -1074 ≤ e) :
    toDouble q = (roundHalfEven (q / (2 : ℚ) ^ e) : ℚ) * (2 : ℚ) ^ e := by
  have hlog : Int.log 2 |q| = e + 52 := by
    rw [abs_of_pos hq]
    refine log_two_eq q (e + 52) hlo ?_
    have h53 : e + 52 + 1 = e + 53 := by ring
    rw [h53]
    exact hhi
  have hmax : max (e + 52) (-1022) - 52 = e := by
    rw [max_eq_left (by omega)]
    ring
  simp only [toDouble, hlog, hmax]

theorem toDouble_eval (q : ℚ) (e m : ℤ) (hq : 0 < q) (hlo : (2 : ℚ) ^ (e + 52) ≤ q)
    (hhi : q < (2 : ℚ) ^ (e + 53)) (he : -1074 ≤ e) (h1 : (m : ℚ) - 1 / 2 < q / (2 : ℚ) ^ e)
    (h2 : q / (2 : ℚ) ^ e < m + 1 / 2) : toDouble q = (m : ℚ) * (2 : ℚ) ^ e := by
  rw [toDouble_of_exponent q e hq hlo hhi he, roundHalfEven_of_near _ m h1 h2]

theorem toDouble_zero : toDouble 0 = 0 := by
  simp [toDouble, roundHalfEven]

theorem toDouble_of_scaled_int (q : ℚ) (n : ℤ)
    (h : q / (2 : ℚ) ^ (max (Int.log 2 |q|) (-1022) - 52) = n) : toDouble q = q := by
  have hne : (2 : ℚ) ^ (max (Int.log 2 |q|) (-1022) - 52) ≠ 0 := zpow_ne_zero _ (by norm_num)
  have hq : q = (n : ℚ) * (2 : ℚ) ^ (max (Int.log 2 |q|) (-1022) - 52) := by
    rw [← h, div_mul_cancel₀ _ hne]
  unfold toDouble
  simp only
  rw [h, roundHalfEven_intCast]
  exact hq.symm

theorem toDouble_intCast (k : ℤ) (hk : |k| ≤ 2 ^ 53) : toDouble (k : ℚ) = k := by
  by_cases h0 : k = 0
  · subst h0
    simpa using toDouble_zero
  · have hpos : 0 < |(k : ℚ)| := abs_pos.mpr (by exact_mod_cast h0)
    have h1 : (1 : ℚ) ≤ |(k : ℚ)| := by
      have := Int.one_le_abs h0
      exact_mod_cast this
    have hub : |(k : ℚ)| ≤ 2 ^ 53 := by exact_mod_cast hk
    have hL0 : 0 ≤ Int.log 2 |(k : ℚ)| := by
      rw [← Int.zpow_le_iff_le_log (by norm_num) hpos]
      simpa using h1
    have hL53 : Int.log 2 |(k : ℚ)| < 54 := by
      rw [← Int.lt_zpow_iff_log_lt (by norm_num) hpos]
      have : (2 : ℚ) ^ 53 < ((2 : ℕ) : ℚ) ^ (54 : ℤ) := by norm_num
      exact lt_of_le_of_lt hub this
    have hlow : (2 : ℚ) ^ Int.log 2 |(k : ℚ)| ≤ |(k : ℚ)| := by
      have h2 : ((2 : ℕ) : ℚ) ^ Int.log 2 |(k : ℚ)| ≤ |(k : ℚ)| :=
        Int.zpow_log_le_self (by norm_num) hpos
      exact_mod_cast h2
    have hmax : max (Int.log 2 |(k : ℚ)|) (-1022) = Int.log 2 |(k : ℚ)| :=
      max_eq_left (by omega)
    by_cases hL : Int.log 2 |(k : ℚ)| ≤ 52
    · obtain ⟨d, hd⟩ : ∃ d : ℕ, (d : ℤ) = 52 - Int.log 2 |(k : ℚ)| :=
        ⟨(52 - Int.log 2 |(k : ℚ)|).toNat, Int.toNat_of_nonneg (by omega)⟩
      refine toDouble_of_scaled_int (k : ℚ) (k * 2 ^ d) ?_
      rw [hmax]
      have he : Int.log 2 |(k : ℚ)| - 52 = -(d : ℤ) := by omega
      rw [he, zpow_neg, zpow_natCast, div_inv_eq_mul]
      push_cast
      ring
    · have hL' : Int.log 2 |(k : ℚ)| = 53 := by omega
      have habs : |(k : ℚ)| = 2 ^ 53 := by
        refine le_antisymm hub ?_
        rw [hL'] at hlow
        exact_mod_cast hlow
      have habsZ : |k| = 2 ^ 53 := by exact_mod_cast habs
      have hcases : k = 2 ^ 53 ∨ k = -2 ^ 53 := by
        rcases abs_cases k with ⟨h, _⟩ | ⟨h, _⟩ <;> omega
      refine toDouble_of_scaled_int (k : ℚ) (k / 2) ?_
      rw [hmax, hL']
      rcases hcases with h | h <;> subst h <;> norm_num

/-! ## Concrete roundings -/

/-- The double `0.1`. -/
theorem toDouble_tenth :
    toDouble (1 / 10) = 3602879701896397 / 36028797018963968 := by
  rw [toDouble_eval (1 / 10) (-56) 7205759403792794 (by norm_num) (by norm_num)
    (by norm_num) (by norm_num) (by norm_num) (by norm_num)]
  norm_num

/-- The double `0.7`. -/
theorem toDouble_seven_tenths :
    toDouble (7 / 10) = 3152519739159347 / 4503599627370496 := by
  rw [toDouble_eval (7 / 10) (-53) 6305039478318694 (by norm_num) (by norm_num)
    (by norm_num) (by norm_num) (by norm_num) (by norm_num)]
  norm_num

/-- The double `0.4`. -/
theorem toDouble_two_fifths :
    toDouble (2 / 5) = 3602879701896397 / 9007199254740992 := by
  rw [toDouble_eval (2 / 5) (-54) 7205759403792794 (by norm_num) (by norm_num)
    (by norm_num) (by norm_num) (by norm_num) (by norm_num)]
  norm_num

/-- The double `0.15`. -/
theorem toDouble_three_twentieths :
    toDouble (3 / 20) = 5404319552844595 / 36028797018963968 := by
  rw [toDouble_eval (3 / 20) (-55) 5404319552844595 (by norm_num) (by norm_num)
    (by norm_num) (by norm_num) (by norm_num) (by norm_num)]
  norm_num

/-- The double `0.7` is kept. -/
theorem toDouble_d07 :
    toDouble (3152519739159347 / 4503599627370496) = 3152519739159347 / 4503599627370496 := by
  rw [toDouble_eval (3152519739159347 / 4503599627370496) (-53) 6305039478318694 (by norm_num) (by norm_num)
    (by norm_num) (by norm_num) (by norm_num) (by norm_num)]
  norm_num

/-- The double `0.1` is kept. -/
theorem toDouble_d01 :
    toDouble (3602879701896397 / 36028797018963968) = 3602879701896397 / 36028797018963968 := by
  rw [toDouble_eval (3602879701896397 / 36028797018963968) (-56) 7205759403792794 (by norm_num) (by norm_num)
    (by norm_num) (by norm_num) (by norm_num) (by norm_num)]
  norm_num

/-- The double `0.4` is kept. -/
theorem toDouble_d04 :
    toDouble (3602879701896397 / 9007199254740992) = 3602879701896397 / 9007199254740992 := by
  rw [toDouble_eval (3602879701896397 / 9007199254740992) (-54) 7205759403792794 (by norm_num) (by norm_num)
    (by norm_num) (by norm_num) (by norm_num) (by norm_num)]
  norm_num

/-- The double `0.15` is kept. -/
theorem toDouble_d015 :
    toDouble (5404319552844595 / 36028797018963968) = 5404319552844595 / 36028797018963968 := by
  rw [toDouble_eval (5404319552844595 / 36028797018963968) (-55) 5404319552844595 (by norm_num) (by norm_num)
    (by norm_num) (by norm_num) (by norm_num) (by norm_num)]
  norm_num

/-- The double `2.5` is kept. -/
theorem toDouble_five_halves :
    toDouble (5 / 2) = 5 / 2 := by
  rw [toDouble_eval (5 / 2) (-51) 5629499534213120 (by norm_num) (by norm_num)
    (by norm_num) (by norm_num) (by norm_num) (by norm_num)]
  norm_num

/-- In doubles `0.7 * 10` is `7`: a tie, rounded to the even significand. -/
theorem toDouble_d07_mul_ten :
    toDouble (15762598695796735 / 2251799813685248) = 7 := by
  rw [toDouble_of_exponent (15762598695796735 / 2251799813685248) (-50) (by norm_num) (by norm_num)
    (by norm_num) (by norm_num)]
  have htie : (15762598695796735 / 2251799813685248 : ℚ) / (2 : ℚ) ^ (-50 : ℤ)
      = ((7881299347898367 : ℤ) : ℚ) + 1 / 2 := by norm_num
  rw [htie, roundHalfEven_tie]
  norm_num

/-- In doubles `0.1 * 10` is `1`. -/
theorem toDouble_d01_mul_ten :
    toDouble (18014398509481985 / 18014398509481984) = 1 := by
  rw [toDouble_eval (18014398509481985 / 18014398509481984) (-52) 4503599627370496 (by norm_num) (by norm_num)
    (by norm_num) (by norm_num) (by norm_num) (by norm_num)]
  norm_num

/-- In doubles `0.7 * 7` is `4.8999999999999995`. -/
theorem toDouble_d07_mul_seven :
    toDouble (22067638174115429 / 4503599627370496) = 5516909543528857 / 1125899906842624 := by
  rw [toDouble_eval (22067638174115429 / 4503599627370496) (-50) 5516909543528857 (by norm_num) (by norm_num)
    (by norm_num) (by norm_num) (by norm_num) (by norm_num)]
  norm_num

/-- In doubles `1 + 4.8999999999999995` is `5.8999999999999995`. -/
theorem toDouble_one_add_x1 :
    toDouble (6642809450371481 / 1125899906842624) = 6642809450371481 / 1125899906842624 := by
  rw [toDouble_eval (6642809450371481 / 1125899906842624) (-50) 6642809450371481 (by norm_num) (by norm_num)
    (by norm_num) (by norm_num) (by norm_num) (by norm_num)]
  norm_num

/-- In doubles `5.8999999999999995 + 0.1` is `5.999999999999999`. -/
theorem toDouble_x2_add_d01 :
    toDouble (216172782113783789 / 36028797018963968) = 6755399441055743 / 1125899906842624 := by
  rw [toDouble_eval (216172782113783789 / 36028797018963968) (-50) 6755399441055743 (by norm_num) (by norm_num)
    (by norm_num) (by norm_num) (by norm_num) (by norm_num)]
  norm_num

/-- In doubles `2.5 + 0.4` is `2.9`. -/
theorem toDouble_five_halves_add_d04 :
    toDouble (26120877838748877 / 9007199254740992) = 6530219459687219 / 2251799813685248 := by
  rw [toDouble_eval (26120877838748877 / 9007199254740992) (-51) 6530219459687219 (by norm_num) (by norm_num)
    (by norm_num) (by norm_num) (by norm_num) (by norm_num)]
  norm_num

/-- In doubles `1 + 0.15` is `1.15`. -/
theorem toDouble_one_add_d015 :
    toDouble (41433116571808563 / 36028797018963968) = 2589569785738035 / 2251799813685248 := by
  rw [toDouble_eval (41433116571808563 / 36028797018963968) (-52) 5179139571476070 (by norm_num) (by norm_num)
    (by norm_num) (by norm_num) (by norm_num) (by norm_num)]
  norm_num

/-- In doubles `1.15 * 100` is `114.99999999999999`. -/
theorem toDouble_b115_mul_hundred :
    toDouble (64739244643450875 / 562949953421312) = 8092405580431359 / 70368744177664 := by
  rw [toDouble_eval (64739244643450875 / 562949953421312) (-46) 8092405580431359 (by norm_num) (by norm_num)
    (by norm_num) (by norm_num) (by norm_num) (by norm_num)]
  norm_num

/-- The double `114.99999999999999` is kept. -/
theorem toDouble_b115x100 :
    toDouble (8092405580431359 / 70368744177664) = 8092405580431359 / 70368744177664 := by
  rw [toDouble_eval (8092405580431359 / 70368744177664) (-46) 8092405580431359 (by norm_num) (by norm_num)
    (by norm_num) (by norm_num) (by norm_num) (by norm_num)]
  norm_num

theorem toDouble_natCast (n : ℕ) (hn : n ≤ 2 ^ 53) : toDouble (n : ℚ) = n := by
  have h := toDouble_intCast (n : ℤ) (by
    rw [abs_of_nonneg (Int.natCast_nonneg n)]
    exact_mod_cast hn)
  simpa using h

/-! ## C8: effective rates -/

theorem binary64_calculateStats_nil (player : Option Player) :
    Binary64.calculateStats [] player = { cpc := 1, cps := 0 } := rfl

/-- C8, as stated, fails, whichever way the factors are read.
* Base click value 1, active click multipliers `0.7` and `10`: the code's
  `effectiveCpc` is 7, the double product `0.7 * 10` being rounded up to 7,
  while `floor(baseCpc * (product of the factors) + bonusFlat)` is 6, the exact
  product of the two doubles lying just below 7.
* One whisk of click bonus `0.15`, one active click multiplier `100`: the
  code's `effectiveCpc` is 114, while `floor((1 + 0.15) * 100)` over the
  decimal values is 115. -/
theorem binary64_effectiveCpc_differs_from_exact :
    Binary64.effectiveCpc [] none [slowBoost, tenfoldBoost] = 7 ∧
    Int.floor ((Binary64.calculateStats [] none).cpc
        * (([slowBoost, tenfoldBoost].filter (fun b => b.type = "click_multiplier")).map
            (fun b => b.multiplier)).prod
        + (([slowBoost, tenfoldBoost].filter (fun b => b.type = "bonus_cookies")).map
            (fun b => b.multiplier)).sum) = 6 ∧
    Binary64.effectiveCpc [whiskDouble] (some whiskPlayer) [hundredfoldBoost] = 114 ∧
    Int.floor (((1 : ℚ) + 1 * (3 / 20)) * 100 + 0) = 115 := by
  refine ⟨?_, ?_, ?_, ?_⟩
  · have hM : Binary64.getClickMultiplier [slowBoost, tenfoldBoost] = 7 := by
      norm_num [Binary64.getClickMultiplier, slowBoost, tenfoldBoost, toDouble_seven_tenths,
        toDouble_d07, toDouble_d07_mul_ten]
    have hB : Binary64.getBonusCookies [slowBoost, tenfoldBoost] = 0 := by
      simp [Binary64.getBonusCookies, slowBoost, tenfoldBoost]
    have h7 : toDouble 7 = 7 := by simpa using toDouble_natCast 7 (by norm_num)
    rw [Binary64.effectiveCpc, hM, hB, binary64_calculateStats_nil]
    simp only [one_mul, add_zero, h7]
    rw [Int.floor_eq_iff]
    norm_num
  · have hprod : (([slowBoost, tenfoldBoost].filter (fun b => b.type = "click_multiplier")).map
        (fun b => b.multiplier)).prod = toDouble (7 / 10) * 10 := by
      simp [slowBoost, tenfoldBoost]
    have hsum : (([slowBoost, tenfoldBoost].filter (fun b => b.type = "bonus_cookies")).map
        (fun b => b.multiplier)).sum = 0 := by
      simp [slowBoost, tenfoldBoost]
    rw [binary64_calculateStats_nil, hprod, hsum, toDouble_seven_tenths, Int.floor_eq_iff]
    norm_num
  · have hS : Binary64.calculateStats [whiskDouble] (some whiskPlayer)
        = { cpc := 2589569785738035 / 2251799813685248, cps := 0 } := by
      norm_num [Binary64.calculateStats, whiskDouble, whiskPlayer, getCount, List.lookup, orZero,
        toDouble_three_twentieths, toDouble_d015, toDouble_one_add_d015, toDouble_zero]
    have hM : Binary64.getClickMultiplier [hundredfoldBoost] = 100 := by
      have h100 : toDouble 100 = 100 := by simpa using toDouble_natCast 100 (by norm_num)
      simp [Binary64.getClickMultiplier, hundredfoldBoost, h100]
    have hB : Binary64.getBonusCookies [hundredfoldBoost] = 0 := by
      simp [Binary64.getBonusCookies, hundredfoldBoost]
    rw [Binary64.effectiveCpc, hM, hB, hS, Int.floor_eq_iff]
    norm_num [toDouble_b115_mul_hundred, toDouble_b115x100]
  · rw [Int.floor_eq_iff]
    norm_num

/-- C8, amended: for every catalog, player and list of active boosts,
`effectiveCpc = floor(baseCpc * clickMultiplier + bonusFlat)` and
`effectiveCps = floor(baseCps * cpsMultiplier)` with every product and sum
rounded to the nearest double: the multipliers are the factors of the active
click and cps boosts multiplied one after the other in list order, starting
from 1 (so 1 when there are none), `bonusFlat` the factors of the active bonus
boosts added one after the other starting from 0 (so 0 when there are none),
and the floor is taken once, of the double obtained for the whole expression; a
base of 1, a click multiplier of 2.5 and a bonus of 0.4 give an `effectiveCpc`
of 2. -/
theorem binary64_effective_rates (UPGRADES : List Upgrade) (player : Option Player)
    (active : List Boost) :
    Binary64.effectiveCpc UPGRADES player active
      = Int.floor (toDouble (toDouble ((Binary64.calculateStats UPGRADES player).cpc
            * ((active.filter (fun b => b.type = "click_multiplier")).map
                (fun b => b.multiplier)).foldl (fun mult f => toDouble (mult * f)) 1)
          + ((active.filter (fun b => b.type = "bonus_cookies")).map
              (fun b => b.multiplier)).foldl (fun sum f => toDouble (sum + f)) 0)) ∧
    Binary64.effectiveCps UPGRADES player active
      = Int.floor (toDouble ((Binary64.calculateStats UPGRADES player).cps
          * ((active.filter (fun b => b.type = "cps_multiplier")).map
              (fun b => b.multiplier)).foldl (fun mult f => toDouble (mult * f)) 1)) ∧
    Binary64.effectiveCpc UPGRADES player []
      = Int.floor (toDouble (toDouble ((Binary64.calculateStats UPGRADES player).cpc * 1) + 0)) ∧
    Binary64.effectiveCps UPGRADES player []
      = Int.floor (toDouble ((Binary64.calculateStats UPGRADES player).cps * 1)) ∧
    (Binary64.calculateStats [] none).cpc = 1 ∧
    Binary64.getClickMultiplier [clickBoost, bonusBoostDouble] = 5 / 2 ∧
    Binary64.getBonusCookies [clickBoost, bonusBoostDouble] = toDouble (2 / 5) ∧
    Binary64.effectiveCpc [] none [clickBoost, bonusBoostDouble] = 2 := by
  have hM : Binary64.getClickMultiplier [clickBoost, bonusBoostDouble] = 5 / 2 := by
    simp [Binary64.getClickMultiplier, clickBoost, bonusBoostDouble, toDouble_five_halves]
  have hB : Binary64.getBonusCookies [clickBoost, bonusBoostDouble] = toDouble (2 / 5) := by
    simp [Binary64.getBonusCookies, clickBoost, bonusBoostDouble, toDouble_two_fifths,
      toDouble_d04]
  refine ⟨?_, ?_, rfl, rfl, rfl, hM, hB, ?_⟩
  · simp only [Binary64.effectiveCpc, Binary64.getClickMultiplier, Binary64.getBonusCookies,
      List.foldl_map]
  · simp only [Binary64.effectiveCps, Binary64.getCPSMultiplier, List.foldl_map]
  · rw [Binary64.effectiveCpc, hM, hB, binary64_calculateStats_nil, Int.floor_eq_iff]
    norm_num [toDouble_five_halves, toDouble_two_fifths, toDouble_five_halves_add_d04]

/-! ## C9: base rates -/

/-- C9, as stated, fails: with the catalog `[oven, cursor]` of click bonuses
`0.7` and `0.1` and the counts 7 and 1, `calculateStats` returns the double
`5.999999999999999` as `cpc`, which is neither `1 + 7 * 0.7 + 1 * 0.1` over the
two doubles nor that sum over the decimal values, which is 6; its floor is 5. -/
theorem binary64_calculateStats_differs_from_exact :
    Binary64.calculateStats [ovenDouble, cursorDouble] (some ovenPlayer)
      = { cpc := 6755399441055743 / 1125899906842624, cps := 0 } ∧
    (6755399441055743 / 1125899906842624 : ℚ)
      ≠ 1 + (7 * ovenDouble.cpcBonus + 1 * cursorDouble.cpcBonus) ∧
    (6755399441055743 / 1125899906842624 : ℚ) ≠ 1 + (7 * (7 / 10) + 1 * (1 / 10)) ∧
    (1 : ℚ) + (7 * (7 / 10) + 1 * (1 / 10)) = 6 ∧
    Int.floor (6755399441055743 / 1125899906842624 : ℚ) = 5 := by
  refine ⟨?_, ?_, by norm_num, by norm_num, ?_⟩
  · simp [Binary64.calculateStats, ovenDouble, cursorDouble, ovenPlayer, getCount,
      List.lookup, orZero, toDouble_seven_tenths, toDouble_tenth, toDouble_d01,
      toDouble_zero]
    norm_num [toDouble_tenth, toDouble_d01, toDouble_d07_mul_seven, toDouble_one_add_x1,
      toDouble_x2_add_d01]
  · simp only [ovenDouble, cursorDouble, toDouble_seven_tenths, toDouble_tenth]
    norm_num
  · rw [Int.floor_eq_iff]
    norm_num

theorem binary64_calculateStats_foldl (UPGRADES : List Upgrade) (upgrades : Option Upgrades)
    (acc : Stats) :
    UPGRADES.foldl
        (fun acc upgrade =>
          ({ cpc := toDouble (acc.cpc
                + toDouble (upgrade.cpcBonus * orZero (getCount upgrades upgrade.id))),
             cps := toDouble (acc.cps
                + toDouble (upgrade.cpsBonus * orZero (getCount upgrades upgrade.id))) } : Stats))
        acc
      = { cpc := (UPGRADES.map (fun u =>
              ((upgrades.bind (fun m => m.lookup u.id)).getD 0, u.cpcBonus))).foldl
            (fun sum cb => toDouble (sum + toDouble (cb.2 * cb.1))) acc.cpc,
          cps := (UPGRADES.map (fun u =>
              ((upgrades.bind (fun m => m.lookup u.id)).getD 0, u.cpsBonus))).foldl
            (fun sum cb => toDouble (sum + toDouble (cb.2 * cb.1))) acc.cps } := by
  have hcount : ∀ id : String,
      orZero (getCount upgrades id) = (upgrades.bind (fun m => m.lookup id)).getD 0 := by
    intro id
    rw [orZero_eq_getD]
    cases upgrades <;> rfl
  induction UPGRADES generalizing acc with
  | nil => simp
  | cons u rest ih =>
    rw [List.foldl_cons, ih]
    simp only [List.map_cons, List.foldl_cons, hcount]

theorem binary64_sum_of_zero_counts (l : List (ℚ × ℚ)) (start : ℚ) (hstart : toDouble start = start)
    (hzero : ∀ cb ∈ l, cb.1 = 0) :
    l.foldl (fun sum cb => toDouble (sum + toDouble (cb.2 * cb.1))) start = start := by
  induction l with
  | nil => rfl
  | cons cb rest ih =>
    have h0 : cb.1 = 0 := hzero cb (List.mem_cons_self cb rest)
    rw [List.foldl_cons, h0, mul_zero, toDouble_zero, add_zero, hstart]
    exact ih (fun x hx => hzero x (List.mem_cons_of_mem cb hx))

/-- C9, amended: for every catalog and every player (possibly `null`, possibly
without an `upgrades` mapping), `calculateStats` returns as `cpc` the result of
starting from 1 and, for each catalog entry `u` in catalog order, adding the
double nearest `count[u] * u.cpcBonus` and rounding the sum to the nearest
double, and as `cps` the same from 0 with `u.cpsBonus`, an upgrade without an
entry counting as 0; without a player, without a mapping, or with an empty
mapping the result is exactly `cpc = 1`, `cps = 0`. -/
theorem binary64_calculateStats_spec (UPGRADES : List Upgrade) (player : Option Player)
    (p : Player) :
    Binary64.calculateStats UPGRADES player
      = { cpc := (UPGRADES.map (fun u =>
              (((player.bind (fun q => q.upgrades)).bind (fun m => m.lookup u.id)).getD 0,
                u.cpcBonus))).foldl
            (fun sum cb => toDouble (sum + toDouble (cb.2 * cb.1))) 1,
          cps := (UPGRADES.map (fun u =>
              (((player.bind (fun q => q.upgrades)).bind (fun m => m.lookup u.id)).getD 0,
                u.cpsBonus))).foldl
            (fun sum cb => toDouble (sum + toDouble (cb.2 * cb.1))) 0 } ∧
    Binary64.calculateStats UPGRADES none = { cpc := 1, cps := 0 } ∧
    Binary64.calculateStats UPGRADES (some { p with upgrades := none }) = { cpc := 1, cps := 0 } ∧
    Binary64.calculateStats UPGRADES (some { p with upgrades := some [] })
      = { cpc := 1, cps := 0 } := by
  have hgen : ∀ pl : Option Player, Binary64.calculateStats UPGRADES pl
      = { cpc := (UPGRADES.map (fun u =>
              (((pl.bind (fun q => q.upgrades)).bind (fun m => m.lookup u.id)).getD 0,
                u.cpcBonus))).foldl
            (fun sum cb => toDouble (sum + toDouble (cb.2 * cb.1))) 1,
          cps := (UPGRADES.map (fun u =>
              (((pl.bind (fun q => q.upgrades)).bind (fun m => m.lookup u.id)).getD 0,
                u.cpsBonus))).foldl
            (fun sum cb => toDouble (sum + toDouble (cb.2 * cb.1))) 0 } := by
    intro pl
    unfold Binary64.calculateStats
    rw [binary64_calculateStats_foldl]
  have h1 : toDouble 1 = 1 := by simpa using toDouble_natCast 1 (by norm_num)
  have hnone : ∀ pl : Option Player,
      (∀ id : String, ((pl.bind (fun q => q.upgrades)).bind (fun m => m.lookup id)).getD 0
        = (0 : ℚ)) →
      Binary64.calculateStats UPGRADES pl = { cpc := 1, cps := 0 } := by
    intro pl hpl
    rw [hgen pl, binary64_sum_of_zero_counts _ 1 h1, binary64_sum_of_zero_counts _ 0 toDouble_zero]
    · intro cb hcb
      obtain ⟨u, _, rfl⟩ := List.mem_map.mp hcb
      exact hpl u.id
    · intro cb hcb
      obtain ⟨u, _, rfl⟩ := List.mem_map.mp hcb
      exact hpl u.id
  refine ⟨hgen player, hnone none (fun _ => rfl), hnone _ (fun _ => rfl), hnone _ (fun _ => rfl)⟩

/-! ## C11: clicks -/

/-- C11, as stated, fails: at a balance of `2 ^ 53` a click of value 1 leaves
the balance at `2 ^ 53`, the sum `2 ^ 53 + 1` being rounded back to `2 ^ 53`, so
that one click increases the balance by 0 and not by `1 * 1`. -/
theorem binary64_click_lost_at_two_pow_53 :
    richWorld.cookies = 2 ^ 53 ∧
    (Binary64.handleClick 1 richWorld).cookies = 2 ^ 53 ∧
    ((Binary64.handleClick 1)^[1] richWorld).cookies ≠ richWorld.cookies + (1 : ℕ) * ((1 : ℤ) : ℚ) := by
  have hval : (Binary64.handleClick 1 richWorld).cookies = 2 ^ 53 := by
    have hround : toDouble (9007199254740993 : ℚ) = 9007199254740992 := by
      rw [toDouble_of_exponent 9007199254740993 1 (by norm_num) (by norm_num) (by norm_num)
        (by norm_num)]
      have htie : (9007199254740993 : ℚ) / (2 : ℚ) ^ (1 : ℤ)
          = ((4503599627370496 : ℤ) : ℚ) + 1 / 2 := by norm_num
      rw [htie, roundHalfEven_tie]
      norm_num
    simp only [Binary64.handleClick, richWorld]
    norm_num [hround]
  refine ⟨rfl, hval, ?_⟩
  rw [Function.iterate_one, hval]
  norm_num [richWorld]

theorem binary64_iterate_handleClick (v : ℤ) (n : ℕ) (w : World) (b : ℤ)
    (hb : w.cookies = b) (hbound : |b| + n * |v| ≤ 2 ^ 53) :
    ((Binary64.handleClick v)^[n] w).cookies = ((b + n * v : ℤ) : ℚ) := by
  induction n generalizing w b with
  | zero => simpa using hb
  | succ n ih =>
    have hv : 0 ≤ |v| := abs_nonneg v
    have hn : (0 : ℤ) ≤ (n : ℤ) * |v| := mul_nonneg (Int.natCast_nonneg n) hv
    have hcast : ((n + 1 : ℕ) : ℤ) * |v| = (n : ℤ) * |v| + |v| := by
      push_cast
      ring
    rw [hcast] at hbound
    have hsum : |b + v| ≤ 2 ^ 53 := le_trans (abs_add b v) (by linarith)
    have hstep : (Binary64.handleClick v w).cookies = ((b + v : ℤ) : ℚ) := by
      have h := toDouble_intCast (b + v) hsum
      simp only [Binary64.handleClick, hb]
      rw [← h]
      push_cast
      rfl
    have hnext := ih (Binary64.handleClick v w) (b + v) hstep
      (by linarith [abs_add b v])
    rw [Function.iterate_succ_apply, hnext]
    push_cast
    ring

/-- C11, amended: every click replaces the balance by the double nearest to
`balance + v`; for every session whose balance is an integer `b`, every integer
click value `v` and every `n` with `|b| + n * |v| <= 2 ^ 53`, `n` consecutive
clicks increase the balance by exactly `n * v`.  With ten cursors of
`cpcBonus = 0.1` and one active click multiplier of 2 the click value is 4, and
three clicks at a balance of 7 increase it by exactly 12. -/
theorem binary64_clicks_add (w : World) (b v : ℤ) (n : ℕ) (hb : w.cookies = b)
    (hbound : |b| + n * |v| ≤ 2 ^ 53) :
    (Binary64.handleClick v w).cookies = toDouble (w.cookies + v) ∧
    ((Binary64.handleClick v)^[n] w).cookies = w.cookies + n * (v : ℚ) ∧
    (Binary64.calculateStats [cursorDouble] (some tenCursorPlayer)).cpc = 2 ∧
    Binary64.effectiveCpc [cursorDouble] (some tenCursorPlayer) (activeBoosts [doubleBoost] 0)
      = 4 ∧
    ((Binary64.handleClick 4)^[3] tenCursorWorld).cookies = tenCursorWorld.cookies + 12 := by
  have h2 : toDouble 2 = 2 := by simpa using toDouble_natCast 2 (by norm_num)
  have h4 : toDouble 4 = 4 := by simpa using toDouble_natCast 4 (by norm_num)
  have hbase : Binary64.calculateStats [cursorDouble] (some tenCursorPlayer)
      = { cpc := 2, cps := 0 } := by
    simp [Binary64.calculateStats, cursorDouble, tenCursorPlayer, getCount, List.lookup, orZero,
      toDouble_tenth, toDouble_zero]
    norm_num [toDouble_tenth, toDouble_d01_mul_ten, h2]
  have hact : activeBoosts [doubleBoost] 0 = [doubleBoost] := by
    simp [activeBoosts, doubleBoost]
  have hM : Binary64.getClickMultiplier [doubleBoost] = 2 := by
    simp [Binary64.getClickMultiplier, doubleBoost, h2]
  have hB : Binary64.getBonusCookies [doubleBoost] = 0 := by
    simp [Binary64.getBonusCookies, doubleBoost]
  refine ⟨rfl, ?_, ?_, ?_, ?_⟩
  · rw [binary64_iterate_handleClick v n w b hb hbound, hb]
    push_cast
    ring
  · rw [hbase]
  · rw [hact, Binary64.effectiveCpc, hbase, hM, hB, Int.floor_eq_iff]
    norm_num [h4]
  · have h := binary64_iterate_handleClick 4 3 tenCursorWorld 7
      (by norm_num [tenCursorWorld]) (by norm_num)
    rw [h]
    norm_num [tenCursorWorld]

/-- Witness of `binary64_clicks_add`: five clicks of value 3 at a balance of 10. -/
theorem binary64_clicks_add_witness :
    sampleWorld.cookies = ((10 : ℤ) : ℚ) ∧ |(10 : ℤ)| + (5 : ℕ) * |(3 : ℤ)| ≤ 2 ^ 53 ∧
    ((Binary64.handleClick 3)^[5] sampleWorld).cookies
      = sampleWorld.cookies + (5 : ℕ) * ((3 : ℤ) : ℚ) :=
  have hb : sampleWorld.cookies = ((10 : ℤ) : ℚ) := by norm_num [sampleWorld]
  have hbound : |(10 : ℤ)| + (5 : ℕ) * |(3 : ℤ)| ≤ 2 ^ 53 := by norm_num
  ⟨hb, hbound, (binary64_clicks_add sampleWorld 10 3 5 hb hbound).2.1⟩

/-! ## C3: malformed cache values -/

/-- The effect `freshPlayerEffect` on a session is the calls of `reloadCommands`
carried out one after the other, for a `localStorage` holding `Stored` values. -/
theorem freshPlayerEffect_eq_commands (freshPlayer : Option Player) (w : World) :
    freshPlayerEffect freshPlayer w
      = (reloadCommands freshPlayer (fun key => (w.cache.lookup key).map Stored.toText)).map
          (fun commands => commands.foldl Command.apply w) := by
  cases freshPlayer with
  | none => rfl
  | some fresh =>
    simp only [freshPlayerEffect, reloadCommands]
    cases hlook : w.cache.lookup (cacheKey fresh.id) with
    | none => rfl
    | some stored =>
      cases stored with
      | empty => rfl
      | unparsable => rfl
      | jsonNull => rfl
      | json c =>
        cases c with
        | undefined => rfl
        | num q =>
          by_cases hq : fresh.cookies < q
          · simp [Stored.toText, JsNum.toValue, CookiesValue.greaterThan,
              CookiesValue.toNumber, jsGt, hq, Except.map, Command.apply]
          · simp [Stored.toText, JsNum.toValue, CookiesValue.greaterThan,
              CookiesValue.toNumber, jsGt, hq, Except.map, Command.apply]

/-- C3, as stated, fails, for a server record of 5 cookies: with an unparsable
text stored under the cache key the step throws `SyntaxError` and makes no call,
and with the record `{"cookies":"999"}`, whose `cookies` field is not a number,
it hands the string to `setCookies` and issues a server update carrying it;
with nothing stored it only adopts the server record. -/
theorem reloadCommands_throws_or_updates :
    samplePlayer.cookies = 5 ∧
    reloadCommands (some samplePlayer) (storageWith .unparsable) = .error .syntaxError ∧
    reloadCommands (some samplePlayer)
        (storageWith (.json (.string "999" (.finite 999))))
      = .ok [.setCookies (.string "999" (.finite 999)),
          .playerUpdate "p1" (.string "999" (.finite 999)),
          .removeItem "cookiePlayerData_p1", .setPlayer samplePlayer,
          .setItem "cookiePlayer" samplePlayer] ∧
    reloadCommands (some samplePlayer) (fun _ => none)
      = .ok [.setPlayer samplePlayer, .setItem "cookiePlayer" samplePlayer] := by
  refine ⟨rfl, ?_, ?_, ?_⟩
  · simp [reloadCommands, storageWith, samplePlayer]
  · simp [reloadCommands, storageWith, samplePlayer, CookiesValue.greaterThan,
      CookiesValue.toNumber, cacheKey]
    norm_num
  · simp [reloadCommands]

/-- C3, amended: for every server record `s` and every value stored under the
key `'cookiePlayerData_' + s.id`:
* an unparsable text, or the text `null`: the step throws (`SyntaxError`,
  `TypeError`) before its first call, so that `s` is not adopted and the value
  stays stored;
* the empty string: the step makes the calls it makes with nothing stored;
* a record whose `cookies` field, converted to a number, is not greater than
  `s.cookies`: the step removes the key and then makes the calls it makes with
  nothing stored (it adopts `s`, leaves the balance and issues no update);
* a record whose `cookies` field, converted to a number, is greater than
  `s.cookies`: the step hands the field itself, number or not, to `setCookies`
  and to a server update, then removes the key and adopts `s`.
A missing field converts to `NaN` and is never greater, `null` converts to 0,
`false`/`true` to 0/1, and a string, array or object to the number `ToNumber`
gives for it. -/
theorem reloadCommands_malformed (s : Player) (getItem : String → Option StoredText)
    (stored : StoredText) (hstored : getItem (cacheKey s.id) = some stored) :
    (stored = .unparsable → reloadCommands (some s) getItem = .error .syntaxError) ∧
    (stored = .jsonNull → reloadCommands (some s) getItem = .error .typeError) ∧
    (stored = .empty →
      reloadCommands (some s) getItem = reloadCommands (some s) (fun _ => none)) ∧
    (∀ c : CookiesValue, stored = .json c → c.greaterThan s.cookies = false →
      reloadCommands (some s) getItem
        = (reloadCommands (some s) (fun _ => none)).map
            (fun adopt => Command.removeItem (cacheKey s.id) :: adopt)) ∧
    (∀ c : CookiesValue, stored = .json c → c.greaterThan s.cookies = true →
      reloadCommands (some s) getItem
        = .ok [.setCookies c, .playerUpdate s.id c, .removeItem (cacheKey s.id),
            .setPlayer s, .setItem "cookiePlayer" s]) ∧
    reloadCommands (some s) (fun _ => none) = .ok [.setPlayer s, .setItem "cookiePlayer" s] ∧
    CookiesValue.undefined.greaterThan s.cookies = false ∧
    CookiesValue.null.greaterThan s.cookies = decide (s.cookies < 0) ∧
    (∀ b : Bool, (CookiesValue.bool b).greaterThan s.cookies
      = decide (s.cookies < if b then 1 else 0)) ∧
    (∀ (text : String) (n : JsNumber), (CookiesValue.string text n).greaterThan s.cookies
      = (match n with
        | .nan => false
        | .negInfinity => false
        | .finite q => decide (s.cookies < q)
        | .posInfinity => true)) ∧
    (∀ (json : String) (n : JsNumber), (CookiesValue.object json n).greaterThan s.cookies
      = (match n with
        | .nan => false
        | .negInfinity => false
        | .finite q => decide (s.cookies < q)
        | .posInfinity => true)) := by
  refine ⟨?_, ?_, ?_, ?_, ?_, rfl, rfl, rfl, fun b => rfl, fun _ n => ?_, fun _ n => ?_⟩
  · rintro rfl
    simp [reloadCommands, hstored]
  · rintro rfl
    simp [reloadCommands, hstored]
  · rintro rfl
    simp [reloadCommands, hstored]
  · rintro c rfl hc
    simp [reloadCommands, hstored, hc, Except.map]
  · rintro c rfl hc
    simp [reloadCommands, hstored, hc]
  · cases n <;> rfl
  · cases n <;> rfl

/-- Witness of `reloadCommands_malformed`: the record `{"cookies":null}` against
a server record of 5 cookies is handled as an absent one, the key being removed. -/
theorem reloadCommands_malformed_witness :
    storageWith (.json .null) (cacheKey samplePlayer.id) = some (.json .null) ∧
    CookiesValue.null.greaterThan samplePlayer.cookies = false ∧
    reloadCommands (some samplePlayer) (storageWith (.json .null))
      = (reloadCommands (some samplePlayer) (fun _ => none)).map
          (fun adopt => Command.removeItem (cacheKey samplePlayer.id) :: adopt) :=
  have hstored : storageWith (.json .null) (cacheKey samplePlayer.id) = some (.json .null) := by
    simp [storageWith, samplePlayer]
  have hnot : CookiesValue.null.greaterThan samplePlayer.cookies = false := by
    simp [CookiesValue.greaterThan, CookiesValue.toNumber, samplePlayer]
  ⟨hstored, hnot,
    (reloadCommands_malformed samplePlayer (storageWith (.json .null)) (.json .null)
      hstored).2.2.2.1 .null rfl hnot⟩

end CookieClan
